import Mathlib

/-!
# readsb USRP sample source: frame constants, `usrpCallback`, `usrpRun`

A shallow embedding of `src/readsb.h` (frame-size constants, `struct modesMessage`)
and of `src/sdr_usrp.cpp` (`usrpCallback`, `usrpRun`).

Conventions.
* C `unsigned` / `uint32_t` values are naturals reduced modulo `4294967296` (2^32) where the
  C arithmetic can wrap; `uint64_t` values are reduced modulo `18446744073709551616` (2^64).
* Calls into code outside the two source files (`fifo_acquire`, `fifo_enqueue`, the sample
  converter, `mstime`, `rx_stream->recv`, the `Modes.exit` flag) are answered by an explicit
  environment record, and the calls made are recorded as a list of events.
-/

namespace Readsb

/-! ## Constants of `readsb.h` -/

def MODES_RTL_BUF_SIZE : Nat := 16 * 16384
def MODES_MAG_BUF_SAMPLES : Nat := MODES_RTL_BUF_SIZE / 2

def MODES_PREAMBLE_US : Nat := 8
def MODES_PREAMBLE_SAMPLES : Nat := MODES_PREAMBLE_US * 2
def MODES_LONG_MSG_BYTES : Nat := 14
def MODES_SHORT_MSG_BYTES : Nat := 7
def MODES_LONG_MSG_BITS : Nat := MODES_LONG_MSG_BYTES * 8
def MODES_SHORT_MSG_BITS : Nat := MODES_SHORT_MSG_BYTES * 8
def MODES_LONG_MSG_SAMPLES : Nat := MODES_LONG_MSG_BITS * 2
def MODES_SHORT_MSG_SAMPLES : Nat := MODES_SHORT_MSG_BITS * 2

/-- A C array `unsigned char a[n]`: exactly `n` bytes. -/
def ByteArrayN (n : Nat) : Type := { l : List (Fin 256) // l.length = n }

/-- The leading fields of `struct modesMessage` (readsb.h, lines 340-348): the two timestamps,
the two frame buffers declared with `MODES_LONG_MSG_BYTES` elements, and the bit count. -/
structure modesMessage where
  timestampMsg : Nat
  sysTimestampMsg : Nat
  msg : ByteArrayN MODES_LONG_MSG_BYTES
  verbatim : ByteArrayN MODES_LONG_MSG_BYTES
  msgbits : Int

/-! ## Machine arithmetic -/

/-- Subtraction of `unsigned` (32-bit) values, wrapping. -/
def sub32 (a b : Nat) : Nat := (a % 4294967296 + (4294967296 - b % 4294967296)) % 4294967296

/-- Subtraction of `uint64_t` values, wrapping. -/
def sub64 (a b : Nat) : Nat :=
  (a % 18446744073709551616 + (18446744073709551616 - b % 18446744073709551616))
    % 18446744073709551616

/-! ## The sample block and the callback's environment -/

/-- Modelled from the spec: `struct mag_buf` is declared in `fifo.h`, which is not among the
sources. The fields are the ones `usrpCallback` reads or writes, matching the spec's Sample
Block (magnitude samples, overlap count, valid count, receiver-clock and wall-clock timestamps,
dropped-sample counter, discontinuity flag). Counts are C `unsigned` (32 bits), like the
`unsigned` locals they are combined with; timestamps are `uint64_t`; the two `double` means are
kept as uninterpreted values. -/
structure mag_buf where
  data : List Nat
  totalLength : Nat
  validLength : Nat
  overlap : Nat
  sampleTimestamp : Nat
  sysTimestamp : Nat
  flags : Nat
  mean_level : Nat
  mean_power : Nat
  dropped : Nat
deriving DecidableEq, Repr

/-- Values that `sdr_usrp.cpp` takes from elsewhere: the enum constant `MAGBUF_DISCONTINUOUS`
(fifo.h), and the two `double` expressions of `usrpCallback`, which are computed in floating
point from `Modes.sample_rate` and are therefore left uninterpreted:
`sampleClock c` is `sampleCounter * 12e6 / Modes.sample_rate` for `sampleCounter = c`,
`blockDuration s` is `1e3 * samples_read / Modes.sample_rate` for `samples_read = s`,
each converted to `uint64_t`. -/
structure Env where
  MAGBUF_DISCONTINUOUS : Nat
  sampleClock : Nat → Nat
  blockDuration : Nat → Nat

/-- What the converter hands back for one request: the magnitude written at each index of the
destination, and the two means. -/
structure ConvOut where
  mag : Nat → Nat
  mean_level : Nat
  mean_power : Nat

/-- The answers of the outside world during one `usrpCallback` call: what `fifo_acquire(0)`
returns if it is called (`none` is the NULL pointer, `some (p, b)` is the pointer `p` to a block
with contents `b`), the reading of `mstime()`, and the behaviour of `usrpSDR.converter` on a
buffer and a sample count. -/
structure CallEnv where
  acquire : Option (Nat × mag_buf)
  mstime : Nat
  convert : List Int → Nat → ConvOut

/-- The two `static` locals of `usrpCallback`. -/
structure CallbackState where
  dropped : Nat
  sampleCounter : Nat
deriving DecidableEq, Repr

/-- Calls that `usrpCallback` makes into the rest of the program, in program order. -/
inductive FifoEvent where
  | monitor
  | acquire (r : Option Nat)
  | convert (ptr : Nat) (off : Nat) (n : Nat)
  | enqueue (ptr : Nat) (b : mag_buf)
deriving DecidableEq, Repr

/-- The destination of the converter is `&outbuf->data[off]`: the `n` produced samples replace
`data[off .. off+n)`; everything before `off` and after `off+n` is left as it was. -/
def writeSamples (data : List Nat) (off n : Nat) (mag : Nat → Nat) : List Nat :=
  data.take off ++ (((List.range n).map mag).take (data.length - off) ++ data.drop (off + n))

/-- Lines 247-252 of `usrpCallback`: `to_convert = samples_read`, replaced by
`totalLength - overlap` when `to_convert + outbuf->overlap > outbuf->totalLength`; all in
`unsigned` arithmetic. -/
def to_convert (samples_read : Nat) (b : mag_buf) : Nat :=
  if (samples_read + b.overlap) % 4294967296 > b.totalLength then
    sub32 b.totalLength b.overlap
  else samples_read

/-- The static `dropped` at the end of a call of `usrpCallback` that acquired the block `b`:
reset to 0 by line 236 if it was non-zero, then set to `samples_read - to_convert` by line 251
when the samples did not fit. -/
def droppedAfter (st : CallbackState) (samples_read : Nat) (b : mag_buf) : Nat :=
  if (samples_read + b.overlap) % 4294967296 > b.totalLength then
    sub32 samples_read (to_convert samples_read b)
  else if st.dropped ≠ 0 then 0 else st.dropped

/-- The contents of the acquired block `b` when `usrpCallback` hands it to `fifo_enqueue`
(lines 227-255). -/
def filledBlock (env : Env) (st : CallbackState) (buf : List Int) (samples_read : Nat)
    (w : CallEnv) (b : mag_buf) : mag_buf :=
  { data := writeSamples b.data b.overlap (to_convert samples_read b)
      (w.convert buf (to_convert samples_read b)).mag
    totalLength := b.totalLength
    -- outbuf->validLength = outbuf->overlap + to_convert
    validLength := (b.overlap + to_convert samples_read b) % 4294967296
    overlap := b.overlap
    -- outbuf->sampleTimestamp = sampleCounter * 12e6 / Modes.sample_rate
    sampleTimestamp := env.sampleClock st.sampleCounter
    -- outbuf->sysTimestamp = mstime() - block_duration
    sysTimestamp := sub64 w.mstime (env.blockDuration samples_read)
    -- outbuf->flags = 0; if (dropped) outbuf->flags = outbuf->flags | MAGBUF_DISCONTINUOUS
    flags := if st.dropped ≠ 0 then 0 ||| env.MAGBUF_DISCONTINUOUS else 0
    mean_level := (w.convert buf (to_convert samples_read b)).mean_level
    mean_power := (w.convert buf (to_convert samples_read b)).mean_power
    -- outbuf->dropped = 0; if (dropped) outbuf->dropped = dropped
    dropped := if st.dropped ≠ 0 then st.dropped else 0 }

/-- Function `usrpCallback(buf, len)` of sdr_usrp.cpp, lines 209-260. -/
def usrpCallback (env : Env) (st : CallbackState) (buf : List Int) (len : Nat) (w : CallEnv) :
    CallbackState × List FifoEvent :=
  let samples_read := len / 2
  if samples_read = 0 then
    (st, [FifoEvent.monitor])
  else
    match w.acquire with
    | none =>
      -- FIFO is full. Drop this block.
      ({ dropped := (st.dropped + samples_read) % 4294967296,
         sampleCounter := (st.sampleCounter + samples_read) % 18446744073709551616 },
       [FifoEvent.monitor, FifoEvent.acquire none])
    | some (ptr, b) =>
      ({ dropped := droppedAfter st samples_read b,
         sampleCounter := (st.sampleCounter + samples_read) % 18446744073709551616 },
       [FifoEvent.monitor, FifoEvent.acquire (some ptr),
        FifoEvent.convert ptr b.overlap (to_convert samples_read b),
        FifoEvent.enqueue ptr (filledBlock env st buf samples_read w b)])

/-- One invocation of the callback: its two arguments and the environment's answers. -/
structure Call where
  buf : List Int
  len : Nat
  world : CallEnv

/-- A sequence of `usrpCallback` invocations, threading the static state and collecting the
events of all calls in order. -/
def callbackRun (env : Env) : CallbackState → List Call → CallbackState × List FifoEvent
  | st, [] => (st, [])
  | st, c :: cs =>
    let r := usrpCallback env st c.buf c.len c.world
    let r2 := callbackRun env r.1 cs
    (r2.1, r.2 ++ r2.2)

/-- The values of the two statics before the first call. -/
def initState : CallbackState := { dropped := 0, sampleCounter := 0 }

/-! ## The receive loop -/

/-- The values of `uhd::rx_metadata_t::error_code` as `usrpRun` distinguishes them: the two it
names, and every other code (the `default` branch). -/
inductive ErrorCode where
  | ERROR_CODE_NONE
  | ERROR_CODE_TIMEOUT
  | OTHER (code : Nat)
deriving DecidableEq, Repr

/-- The answers of the outside world during one pass through the `while` loop of `usrpRun`:
the value read from `Modes.exit` by the loop test, what `rx_stream->recv` leaves in `buff` and
in `md.error_code` and returns as `num_rx_samps`, and the environment of the callback. -/
structure Iteration where
  exit : Bool
  buff : List (Int × Int)
  num_rx_samps : Nat
  error_code : ErrorCode
  world : CallEnv

/-- What `usrpRun` does that is visible from outside, in program order. -/
inductive RunEvent where
  | streamStart
  | exitTest (v : Bool)
  | recv (buff : List (Int × Int)) (n : Nat) (ec : ErrorCode)
  | callback (buf : List Int) (len : Nat)
  | streamStop
deriving DecidableEq, Repr

/-- The local `num_acc_samps`, the contents of `usrpSDR.readbuf`, and the callback's statics. -/
structure RunState where
  num_acc_samps : Nat
  readbuf : List Int
  cb : CallbackState

/-- The state reached, the events of `usrpRun`, the events of the callbacks it made, and
whether the loop has been left (false: the given iterations were used up inside the loop). -/
structure RunResult where
  state : RunState
  trace : List RunEvent
  fifo : List FifoEvent
  finished : Bool

/-- The copy loop of `usrpRun` (lines 311-314): `p[2*i] = buff[i].real(); p[2*i+1] =
buff[i].imag()` for `i < num_rx_samps`; the rest of `readbuf` keeps its old contents. -/
def fillReadbuf (readbuf : List Int) (buff : List (Int × Int)) (n : Nat) : List Int :=
  ((List.range n).flatMap fun i => [(buff.getD i (0, 0)).1, (buff.getD i (0, 0)).2])
    ++ readbuf.drop (2 * n)

/-- The `while (!Modes.exit)` loop of `usrpRun`, lines 285-317, one `Iteration` per pass. -/
def usrpRun_loop (env : Env) : RunState → List Iteration → RunResult
  | st, [] => { state := st, trace := [], fifo := [], finished := false }
  | st, it :: rest =>
    if it.exit then
      { state := st, trace := [RunEvent.exitTest true], fifo := [], finished := true }
    else
      match it.error_code with
      | ErrorCode.ERROR_CODE_NONE =>
        let num_acc_samps := (st.num_acc_samps + it.num_rx_samps) % 4294967296
        let readbuf := fillReadbuf st.readbuf it.buff it.num_rx_samps
        let r := usrpCallback env st.cb readbuf it.num_rx_samps it.world
        let k := usrpRun_loop env
          { num_acc_samps := num_acc_samps, readbuf := readbuf, cb := r.1 } rest
        { state := k.state
          trace := [RunEvent.exitTest false,
                    RunEvent.recv it.buff it.num_rx_samps ErrorCode.ERROR_CODE_NONE,
                    RunEvent.callback readbuf it.num_rx_samps] ++ k.trace
          fifo := r.2 ++ k.fifo
          finished := k.finished }
      | ErrorCode.ERROR_CODE_TIMEOUT =>
        if st.num_acc_samps = 0 then
          -- continue
          let k := usrpRun_loop env st rest
          { state := k.state
            trace := [RunEvent.exitTest false,
                      RunEvent.recv it.buff it.num_rx_samps ErrorCode.ERROR_CODE_TIMEOUT] ++ k.trace
            fifo := k.fifo
            finished := k.finished }
        else
          -- goto done_loop
          { state := st
            trace := [RunEvent.exitTest false,
                      RunEvent.recv it.buff it.num_rx_samps ErrorCode.ERROR_CODE_TIMEOUT]
            fifo := []
            finished := true }
      | ErrorCode.OTHER code =>
        -- goto done_loop
        { state := st
          trace := [RunEvent.exitTest false,
                    RunEvent.recv it.buff it.num_rx_samps (ErrorCode.OTHER code)]
          fifo := []
          finished := true }

/-- Function `usrpRun()` of sdr_usrp.cpp, lines 264-325: start streaming, `num_acc_samps = 0`,
the loop, and after `done_loop:` the stop-streaming command. `readbuf` and `cb` are what
`usrpSDR.readbuf` and the callback's statics hold on entry. -/
def usrpRun (env : Env) (readbuf : List Int) (cb : CallbackState) (its : List Iteration) :
    RunResult :=
  let k := usrpRun_loop env { num_acc_samps := 0, readbuf := readbuf, cb := cb } its
  { state := k.state
    trace := [RunEvent.streamStart] ++ k.trace
              ++ (if k.finished then [RunEvent.streamStop] else [])
    fifo := k.fifo
    finished := k.finished }

/-! ## Reading the event lists -/

/-- The blocks handed to `fifo_enqueue`, in order. -/
def enqueuedBlocks : List FifoEvent → List mag_buf
  | [] => []
  | FifoEvent.enqueue _ b :: es => b :: enqueuedBlocks es
  | _ :: es => enqueuedBlocks es

/-- The pointers handed to `fifo_enqueue`, in order. -/
def enqueuedPtrs : List FifoEvent → List Nat
  | [] => []
  | FifoEvent.enqueue p _ :: es => p :: enqueuedPtrs es
  | _ :: es => enqueuedPtrs es

/-- The pointers returned by successful `fifo_acquire` calls, in order. -/
def acquiredPtrs : List FifoEvent → List Nat
  | [] => []
  | FifoEvent.acquire (some p) :: es => p :: acquiredPtrs es
  | _ :: es => acquiredPtrs es

/-- The converter requests `(pointer, offset, count)`, in order. -/
def convertRequests : List FifoEvent → List (Nat × Nat × Nat)
  | [] => []
  | FifoEvent.convert p off n :: es => (p, off, n) :: convertRequests es
  | _ :: es => convertRequests es

/-! ## Concrete environments used for evaluation -/

/-- An environment with `MAGBUF_DISCONTINUOUS = 1` and, for the two floating-point expressions,
their values at `Modes.sample_rate = 2400000` while no rounding occurs. -/
def env0 : Env :=
  { MAGBUF_DISCONTINUOUS := 1
    sampleClock := fun c => c * 5
    blockDuration := fun s => s / 2400 }

/-- A converter that writes the constant magnitude 7. -/
def conv0 : List Int → Nat → ConvOut := fun _ _ => { mag := fun _ => 7, mean_level := 0, mean_power := 0 }

/-- The pool is full: `fifo_acquire` returns NULL. -/
def fullPool : CallEnv := { acquire := none, mstime := 1000, convert := conv0 }

/-- The pool hands out the block `b` at address `p`. -/
def poolGives (p : Nat) (b : mag_buf) : CallEnv :=
  { acquire := some (p, b), mstime := 1000, convert := conv0 }

/-- A block with the given `overlap` and `totalLength`, all samples 0, stale metadata. -/
def blockOf (overlap totalLength : Nat) : mag_buf :=
  { data := List.replicate (min totalLength 8) 0
    totalLength := totalLength
    validLength := 3
    overlap := overlap
    sampleTimestamp := 99
    sysTimestamp := 99
    flags := 255
    mean_level := 0
    mean_power := 0
    dropped := 42 }

/-- A call with `len` 16-bit values (all zero in the model, the converter ignores them) that
finds the pool full. -/
def droppedCall (len : Nat) : Call := { buf := [], len := len, world := fullPool }

/-- Calls after which the 64-bit sample counter stands at its largest value: `2^33 + 4` dropped
calls of `2^31 - 1` samples each, then one dropped call of 3 samples. -/
def nearWrapCalls : List Call :=
  List.replicate 8589934596 (droppedCall 4294967294) ++ [droppedCall 6]

/-- The sample counts `len/2` of a list of calls, summed. -/
def totalSamples (cs : List Call) : Nat := (cs.map fun c => c.len / 2).sum

/-- An hour of back-pressure: 65536 consecutive calls, each with a full USRP buffer passed as
`len = 131072` (so `samples_read = 65536`), all finding the pool full. -/
def stalledCalls : List Call := List.replicate 65536 (droppedCall 131072)

/-- The call after the stall: the same `len`, and the pool hands out a block with room. -/
def resumeCall : Call := { buf := [], len := 131072, world := poolGives 77 (blockOf 326 131398) }

/-- Samples converted into the given blocks: the sum of `validLength - overlap`. -/
def convertedSamples (bs : List mag_buf) : Nat :=
  (bs.map fun b => b.validLength - b.overlap).sum

/-- The same sum over the integers, where `validLength - overlap` may be negative. -/
def convertedSamplesInt (bs : List mag_buf) : Int :=
  (bs.map fun b => (b.validLength : Int) - (b.overlap : Int)).sum

/-- The dropped counts carried by the given blocks, summed. -/
def carriedDropped (bs : List mag_buf) : Nat := (bs.map fun b => b.dropped).sum

/-- Side conditions on one call made from state `st`: nothing is asked of a call with
`samples_read = 0`; a call that finds the pool full must not overflow the 32-bit dropped
counter; an acquired block must have `overlap <= totalLength` (a 32-bit value) and
`samples_read + overlap` must not wrap around 32 bits. -/
def callOk (st : CallbackState) (c : Call) : Bool :=
  if c.len / 2 = 0 then true
  else
    match c.world.acquire with
    | none => decide (st.dropped + c.len / 2 < 4294967296)
    | some (_, b) =>
      decide (b.overlap ≤ b.totalLength) && decide (b.totalLength < 4294967296)
        && decide (c.len / 2 + b.overlap < 4294967296)

/-- The side conditions `callOk` hold at every call of the sequence. -/
def runOk (env : Env) : CallbackState → List Call → Bool
  | _, [] => true
  | st, c :: cs => callOk st c && runOk env (usrpCallback env st c.buf c.len c.world).1 cs

/-- A call of `2^31 - 1` samples that acquires a block with `overlap = 2^31 + 2` and
`totalLength = 2^32 - 1`. -/
def wrapCall : Call :=
  { buf := [], len := 4294967294, world := poolGives 77 (blockOf 2147483650 4294967295) }

/-- A call of `2^31 - 1` samples that acquires a block with no overlap and room for exactly
that many samples. -/
def exactFitCall : Call :=
  { buf := [], len := 4294967294, world := poolGives 77 (blockOf 0 2147483647) }

/-- A session of `2^33 + 5` calls, every one of them `exactFitCall`: no sample is dropped. -/
def longSession : List Call := List.replicate 8589934597 exactFitCall

/-- A short session: a dropped call of 3 samples, a call of 2 samples that fits its block, a
call of 10 samples into a block with room for 7, and a dropped call of 2 samples. -/
def sessionCalls : List Call :=
  [droppedCall 6, ⟨[], 4, poolGives 77 (blockOf 1 8)⟩, ⟨[], 20, poolGives 78 (blockOf 1 8)⟩,
   droppedCall 4]

/-- One pass of the receive loop: the exit flag is clear, `recv` fills the whole buffer
(`num_rx_samps = 131072 = MODES_MAG_BUF_SAMPLES`) without error, and the pool hands out a block
with room for 131072 samples after its overlap. -/
def fullBufferIteration : Iteration :=
  { exit := false
    buff := List.replicate 131072 (3, -4)
    num_rx_samps := 131072
    error_code := ErrorCode.ERROR_CODE_NONE
    world := poolGives 77 (blockOf 326 131398) }

/-- A pass that receives two samples without error; the pool hands out a block. -/
def goodIteration : Iteration :=
  { exit := false
    buff := [(3, -4), (5, 6)]
    num_rx_samps := 2
    error_code := ErrorCode.ERROR_CODE_NONE
    world := poolGives 77 (blockOf 1 8) }

/-- A pass at whose start `Modes.exit` is found set. -/
def exitIteration : Iteration := { goodIteration with exit := true }

/-! ## `datasource_t` and `check_locked_sensor` -/

/-- The enumeration `datasource_t` of readsb.h, lines 132-142. -/
inductive datasource_t where
  | SOURCE_INVALID
  | SOURCE_MODE_AC
  | SOURCE_MLAT
  | SOURCE_MODE_S
  | SOURCE_MODE_S_CHECKED
  | SOURCE_TISB
  | SOURCE_ADSR
  | SOURCE_ADSB
deriving DecidableEq, Repr

/-- The integer value the header gives to each enumerator. -/
def datasource_t.val : datasource_t → Nat
  | SOURCE_INVALID => 0
  | SOURCE_MODE_AC => 1
  | SOURCE_MLAT => 2
  | SOURCE_MODE_S => 3
  | SOURCE_MODE_S_CHECKED => 4
  | SOURCE_TISB => 5
  | SOURCE_ADSR => 6
  | SOURCE_ADSB => 7

/-- What the outside world answers during one pass of the `while (true)` loop of
`check_locked_sensor`: the reading of `steady_clock::now()` at the head of the pass (the code
reads it only when `lock_detected` is set), the value of `get_sensor_fn(sensor_name).to_bool()`,
and the reading of `steady_clock::now()` in the `else` branch (read only after an unlocked
reading). Clock readings are tick counts. -/
structure Poll where
  now_head : Nat
  locked : Bool
  now_else : Nat
deriving DecidableEq, Repr

/-- How a call of `check_locked_sensor` stands when the supplied passes are over: it has
returned a value, it has thrown `std::runtime_error`, or it is still inside the loop. -/
inductive SensorOutcome where
  | returned (v : Bool)
  | threw
  | running
deriving DecidableEq, Repr

/-- The outcome, the number of loop passes started, and the number of calls of
`get_sensor_fn`. -/
structure SensorResult where
  outcome : SensorOutcome
  iterations : Nat
  queries : Nat
deriving DecidableEq, Repr

/-- The `while (true)` loop of `check_locked_sensor`, lines 67-87, one `Poll` per pass, from
the given value of `lock_detected`. -/
def check_locked_loop (setup_timeout : Nat) : Bool → List Poll → SensorResult
  | _, [] => { outcome := SensorOutcome.running, iterations := 0, queries := 0 }
  | lock_detected, p :: ps =>
    if lock_detected && decide (p.now_head > setup_timeout) then
      -- break; return true
      { outcome := SensorOutcome.returned true, iterations := 1, queries := 0 }
    else if p.locked then
      -- lock_detected = true
      let r := check_locked_loop setup_timeout true ps
      { outcome := r.outcome, iterations := r.iterations + 1, queries := r.queries + 1 }
    else if p.now_else > setup_timeout then
      -- throw std::runtime_error
      { outcome := SensorOutcome.threw, iterations := 1, queries := 1 }
    else
      let r := check_locked_loop setup_timeout lock_detected ps
      { outcome := r.outcome, iterations := r.iterations + 1, queries := r.queries + 1 }

/-- Function `check_locked_sensor` of sdr_usrp.cpp, lines 52-90. `now0` is the clock reading
of line 61 and `setup_time` the duration `setup_time * 1s` in clock ticks, so that
`setup_timeout = now0 + setup_time`; the sensor function is queried with `sensor_name` only,
and its answers are the `locked` fields of the passes. -/
def check_locked_sensor (sensor_names : List String) (sensor_name : String) (now0 : Nat)
    (setup_time : Nat) (polls : List Poll) : SensorResult :=
  if sensor_name ∉ sensor_names then
    { outcome := SensorOutcome.returned false, iterations := 0, queries := 0 }
  else
    check_locked_loop (now0 + setup_time) false polls

/-- The clock never runs backwards: every reading is at least the one before it, starting
from the reading `t`. -/
def clockMonotone : Nat → List Poll → Bool
  | _, [] => true
  | t, p :: ps => decide (t ≤ p.now_head) && decide (p.now_head ≤ p.now_else)
      && clockMonotone p.now_else ps

/-- A lock that does not hold: with the deadline at tick 10, the sensor reads locked at tick 1
and unlocked at tick 2, and the third pass starts at tick 11. -/
def flickerPolls : List Poll :=
  [{ now_head := 1, locked := true, now_else := 1 },
   { now_head := 2, locked := false, now_else := 2 },
   { now_head := 11, locked := true, now_else := 11 }]

/-- A pass of the receive loop in which `recv` reports a timeout and no samples. -/
def timeoutIteration : Iteration :=
  { exit := false
    buff := []
    num_rx_samps := 0
    error_code := ErrorCode.ERROR_CODE_TIMEOUT
    world := fullPool }

/-- Half an hour of streaming at 2.4 MHz, 32768 full buffers of 131072 samples each
(2^32 samples in all), followed by two passes in which `recv` times out. -/
def wrapIterations : List Iteration :=
  List.replicate 32768 fullBufferIteration ++ [timeoutIteration, timeoutIteration]

/-- The samples received without error in the given passes, summed. -/
def receivedSamples (its : List Iteration) : Nat := (its.map fun i => i.num_rx_samps).sum

/-- The samples accumulated over the given passes: `num_rx_samps` of every pass whose receive
reported `ERROR_CODE_NONE`, summed (without wrapping). -/
def okSamples (its : List Iteration) : Nat :=
  (its.map fun i => if i.error_code = ErrorCode.ERROR_CODE_NONE then i.num_rx_samps else 0).sum

/-- A pass in which `recv` returns four complex samples without error, and the pool hands
out a block with overlap 1 and room for 7 more samples. -/
def fourSampleIteration : Iteration :=
  { exit := false
    buff := [(1, 2), (3, 4), (5, 6), (7, 8)]
    num_rx_samps := 4
    error_code := ErrorCode.ERROR_CODE_NONE
    world := poolGives 77 (blockOf 1 8) }

/-! ## Theorems -/

/-- C10: the frame-size constants: short frame 7 bytes = 56 bits = 112 samples, long frame
14 bytes = 112 bits = 224 samples = twice the short frame, preamble 16 samples, and the `msg`
and `verbatim` buffers of every decoded message hold exactly 14 bytes, one long frame. -/
theorem frame_constants (m : modesMessage) :
    MODES_SHORT_MSG_BYTES = 7 ∧ MODES_SHORT_MSG_BITS = 56 ∧ MODES_SHORT_MSG_SAMPLES = 112 ∧
    MODES_LONG_MSG_BYTES = 14 ∧ MODES_LONG_MSG_BITS = 112 ∧ MODES_LONG_MSG_SAMPLES = 224 ∧
    MODES_LONG_MSG_SAMPLES = 2 * MODES_SHORT_MSG_SAMPLES ∧
    MODES_PREAMBLE_SAMPLES = 16 ∧
    m.msg.val.length = 14 ∧ m.verbatim.val.length = 14 ∧
    m.msg.val.length = MODES_LONG_MSG_BYTES ∧ m.verbatim.val.length = MODES_LONG_MSG_BYTES := by
  refine ⟨rfl, rfl, rfl, rfl, rfl, rfl, rfl, rfl, ?_, ?_, ?_, ?_⟩
  · exact m.msg.property
  · exact m.verbatim.property
  · exact m.msg.property
  · exact m.verbatim.property

theorem callbackRun_append (env : Env) (st : CallbackState) (xs ys : List Call) :
    callbackRun env st (xs ++ ys) =
      ((callbackRun env (callbackRun env st xs).1 ys).1,
       (callbackRun env st xs).2 ++ (callbackRun env (callbackRun env st xs).1 ys).2) := by
  induction xs generalizing st with
  | nil => simp [callbackRun]
  | cons x xs ih => simp [callbackRun, ih, List.append_assoc]

theorem usrpCallback_none (env : Env) (st : CallbackState) (buf : List Int) (len : Nat)
    (w : CallEnv) (hs : 0 < len / 2) (ha : w.acquire = none) :
    usrpCallback env st buf len w =
      ({ dropped := (st.dropped + len / 2) % 4294967296,
         sampleCounter := (st.sampleCounter + len / 2) % 18446744073709551616 },
       [FifoEvent.monitor, FifoEvent.acquire none]) := by
  have h0 : ¬ (len / 2 = 0) := by omega
  simp [usrpCallback, h0, ha]

/-- C1 (as amended): a call with `samples_read = len/2 > 0` that finds the pool full adds
`samples_read` to the pending dropped counter modulo 2^32 and to `sampleCounter` modulo 2^64,
and its only calls are `sdrMonitor` and the failed `fifo_acquire`: no converter request and no
enqueue. -/
theorem usrpCallback_pool_full (env : Env) (st : CallbackState) (buf : List Int) (len : Nat)
    (w : CallEnv) (hs : 0 < len / 2) (ha : w.acquire = none) :
    (usrpCallback env st buf len w).1.dropped = (st.dropped + len / 2) % 4294967296 ∧
    (usrpCallback env st buf len w).1.sampleCounter
      = (st.sampleCounter + len / 2) % 18446744073709551616 ∧
    (usrpCallback env st buf len w).2 = [FifoEvent.monitor, FifoEvent.acquire none] ∧
    enqueuedBlocks (usrpCallback env st buf len w).2 = [] ∧
    convertRequests (usrpCallback env st buf len w).2 = [] := by
  rw [usrpCallback_none env st buf len w hs ha]
  simp [enqueuedBlocks, convertRequests]

/-- Witness for C1: a dropped call of 3 samples from the initial state. -/
theorem usrpCallback_pool_full_witness :
    (usrpCallback env0 initState [] 6 fullPool).1.dropped = (0 + 6 / 2) % 4294967296 ∧
    (usrpCallback env0 initState [] 6 fullPool).1.sampleCounter
      = (0 + 6 / 2) % 18446744073709551616 ∧
    (usrpCallback env0 initState [] 6 fullPool).2 = [FifoEvent.monitor, FifoEvent.acquire none] ∧
    enqueuedBlocks (usrpCallback env0 initState [] 6 fullPool).2 = [] ∧
    convertRequests (usrpCallback env0 initState [] 6 fullPool).2 = [] :=
  usrpCallback_pool_full env0 initState [] 6 fullPool (by decide) rfl

theorem callbackRun_replicate_dropped (env : Env) (len : Nat) (hs : 0 < len / 2) (n : Nat)
    (st : CallbackState) (hd : st.dropped < 4294967296)
    (hc : st.sampleCounter < 18446744073709551616) :
    (callbackRun env st (List.replicate n (droppedCall len))).1 =
      { dropped := (st.dropped + n * (len / 2)) % 4294967296,
        sampleCounter := (st.sampleCounter + n * (len / 2)) % 18446744073709551616 } := by
  induction n generalizing st with
  | zero =>
    cases st
    simp only [List.replicate, callbackRun, Nat.zero_mul, Nat.add_zero] at *
    rw [Nat.mod_eq_of_lt hd, Nat.mod_eq_of_lt hc]
  | succ n ih =>
    simp only [List.replicate, callbackRun]
    rw [show (droppedCall len).len = len from rfl, show (droppedCall len).world = fullPool from rfl,
      usrpCallback_none env st _ len fullPool hs rfl]
    rw [ih _ (Nat.mod_lt _ (by decide)) (Nat.mod_lt _ (by decide))]
    simp only [Nat.succ_mul, Nat.mod_add_mod]
    congr 2 <;> ring_nf

theorem nearWrapCalls_state :
    (callbackRun env0 initState nearWrapCalls).1 =
      { dropped := 4294967295, sampleCounter := 18446744073709551615 } := by
  unfold nearWrapCalls
  rw [callbackRun_append,
    callbackRun_replicate_dropped env0 4294967294 (by decide) 8589934596 initState
      (by decide) (by decide)]
  simp only [callbackRun, droppedCall]
  rw [usrpCallback_none env0 _ _ 6 fullPool (by decide) rfl]
  decide

/-- C1 (counterexample to the claim as stated): from the initial state, after the dropped calls
`nearWrapCalls` the sample counter stands at 2^64 - 1; one more dropped call with `len = 2`
(one sample, pool full) leaves it at 0, so it has not grown by exactly `samples_read`. -/
theorem usrpCallback_pool_full_sampleCounter_wraps :
    0 < 2 / 2 ∧ fullPool.acquire = none ∧
    (callbackRun env0 initState nearWrapCalls).1.sampleCounter = 18446744073709551615 ∧
    (usrpCallback env0 (callbackRun env0 initState nearWrapCalls).1 [] 2 fullPool).1.sampleCounter
      = 0 ∧
    (usrpCallback env0 (callbackRun env0 initState nearWrapCalls).1 [] 2 fullPool).1.sampleCounter
      ≠ (callbackRun env0 initState nearWrapCalls).1.sampleCounter + 2 / 2 := by
  rw [nearWrapCalls_state, usrpCallback_none env0 _ [] 2 fullPool (by decide) rfl]
  decide

theorem usrpCallback_some (env : Env) (st : CallbackState) (buf : List Int) (len : Nat)
    (w : CallEnv) (p : Nat) (b : mag_buf) (hs : 0 < len / 2) (ha : w.acquire = some (p, b)) :
    usrpCallback env st buf len w =
      ({ dropped := droppedAfter st (len / 2) b,
         sampleCounter := (st.sampleCounter + len / 2) % 18446744073709551616 },
       [FifoEvent.monitor, FifoEvent.acquire (some p),
        FifoEvent.convert p b.overlap (to_convert (len / 2) b),
        FifoEvent.enqueue p (filledBlock env st buf (len / 2) w b)]) := by
  have h0 : ¬ (len / 2 = 0) := by omega
  simp [usrpCallback, h0, ha]

theorem usrpCallback_empty (env : Env) (st : CallbackState) (buf : List Int) (len : Nat)
    (w : CallEnv) (hs : len / 2 = 0) :
    usrpCallback env st buf len w = (st, [FifoEvent.monitor]) := by
  simp [usrpCallback, hs]

/-- C2: in a call whose `fifo_acquire` succeeds (which requires `samples_read > 0`), exactly
one block is enqueued, at the acquired pointer; its `dropped` field is the pending dropped
counter `d` held on entry, and its flags are exactly `MAGBUF_DISCONTINUOUS` when `d > 0` and
exactly 0 when `d = 0`, whatever flags and dropped count the block held before. -/
theorem usrpCallback_block_metadata (env : Env) (st : CallbackState) (buf : List Int)
    (len : Nat) (w : CallEnv) (p : Nat) (b : mag_buf)
    (hs : 0 < len / 2) (ha : w.acquire = some (p, b)) :
    ∃ ob : mag_buf,
      enqueuedBlocks (usrpCallback env st buf len w).2 = [ob] ∧
      enqueuedPtrs (usrpCallback env st buf len w).2 = [p] ∧
      ob.dropped = st.dropped ∧
      (0 < st.dropped → ob.flags = env.MAGBUF_DISCONTINUOUS) ∧
      (st.dropped = 0 → ob.flags = 0) := by
  rw [usrpCallback_some env st buf len w p b hs ha]
  refine ⟨filledBlock env st buf (len / 2) w b, rfl, rfl, ?_, ?_, ?_⟩
  · by_cases hd : st.dropped = 0 <;> simp [filledBlock, hd]
  · intro hd
    have hd0 : st.dropped ≠ 0 := by omega
    simp [filledBlock, hd0]
  · intro hd
    simp [filledBlock, hd]

/-- Witness for C2: 5 samples pending, a stale block with flags 255 and dropped 42. -/
theorem usrpCallback_block_metadata_witness :
    ∃ ob : mag_buf,
      enqueuedBlocks (usrpCallback env0 ⟨5, 5⟩ [] 4 (poolGives 77 (blockOf 1 8))).2 = [ob] ∧
      enqueuedPtrs (usrpCallback env0 ⟨5, 5⟩ [] 4 (poolGives 77 (blockOf 1 8))).2 = [77] ∧
      ob.dropped = (⟨5, 5⟩ : CallbackState).dropped ∧
      (0 < (⟨5, 5⟩ : CallbackState).dropped → ob.flags = env0.MAGBUF_DISCONTINUOUS) ∧
      ((⟨5, 5⟩ : CallbackState).dropped = 0 → ob.flags = 0) :=
  usrpCallback_block_metadata env0 ⟨5, 5⟩ [] 4 (poolGives 77 (blockOf 1 8)) 77 (blockOf 1 8)
    (by decide) rfl

theorem enqueuedBlocks_append (xs ys : List FifoEvent) :
    enqueuedBlocks (xs ++ ys) = enqueuedBlocks xs ++ enqueuedBlocks ys := by
  induction xs with
  | nil => rfl
  | cons x xs ih => cases x <;> simp [enqueuedBlocks, ih]

theorem callbackRun_all_dropped (env : Env) (fails : List Call) (st : CallbackState)
    (hf : ∀ f ∈ fails, 0 < f.len / 2 ∧ f.world.acquire = none)
    (hd : st.dropped < 4294967296) :
    (callbackRun env st fails).1.dropped = (st.dropped + totalSamples fails) % 4294967296 ∧
    enqueuedBlocks (callbackRun env st fails).2 = [] := by
  induction fails generalizing st with
  | nil => simp [callbackRun, totalSamples, enqueuedBlocks, Nat.mod_eq_of_lt hd]
  | cons f fs ih =>
    have hf0 := hf f (List.mem_cons_self f fs)
    have hrest : ∀ g ∈ fs, 0 < g.len / 2 ∧ g.world.acquire = none :=
      fun g hg => hf g (List.mem_cons_of_mem f hg)
    simp only [callbackRun]
    rw [usrpCallback_none env st f.buf f.len f.world hf0.1 hf0.2]
    have h := ih { dropped := (st.dropped + f.len / 2) % 4294967296,
                   sampleCounter := (st.sampleCounter + f.len / 2) % 18446744073709551616 }
      hrest (Nat.mod_lt _ (by decide))
    refine ⟨?_, ?_⟩
    · rw [h.1]
      simp only [totalSamples, List.map_cons, List.sum_cons, Nat.mod_add_mod]
      congr 1
      omega
    · rw [enqueuedBlocks_append, h.2]
      rfl

theorem to_convert_of_fit (s : Nat) (b : mag_buf) (hfit : s + b.overlap ≤ b.totalLength)
    (hT : b.totalLength < 4294967296) : to_convert s b = s := by
  unfold to_convert
  have h : (s + b.overlap) % 4294967296 = s + b.overlap := Nat.mod_eq_of_lt (by omega)
  rw [h, if_neg (by omega)]

theorem droppedAfter_of_fit (st : CallbackState) (s : Nat) (b : mag_buf)
    (hfit : s + b.overlap ≤ b.totalLength) (hT : b.totalLength < 4294967296) :
    droppedAfter st s b = 0 := by
  unfold droppedAfter
  have h : (s + b.overlap) % 4294967296 = s + b.overlap := Nat.mod_eq_of_lt (by omega)
  rw [h, if_neg (by omega)]
  by_cases hd : st.dropped = 0 <;> simp [hd]

/-- C3 (as amended): starting from a pending dropped count of 0, after consecutive calls whose
acquire fails, with sample counts `s1..sk` (each `> 0`) whose sum is not a multiple of 2^32
(so there is at least one such call), a call whose acquire succeeds and whose samples fit the block enqueues the only block
of the run, with flags exactly `MAGBUF_DISCONTINUOUS` and `dropped = (s1+...+sk) mod 2^32`, and
leaves the pending dropped count at 0. -/
theorem dropped_run_then_success (env : Env) (st : CallbackState) (fails : List Call)
    (c : Call) (p : Nat) (b : mag_buf)
    (hst : st.dropped = 0)
    (hf : ∀ f ∈ fails, 0 < f.len / 2 ∧ f.world.acquire = none)
    (hnz : totalSamples fails % 4294967296 ≠ 0)
    (hs : 0 < c.len / 2) (ha : c.world.acquire = some (p, b))
    (hfit : c.len / 2 + b.overlap ≤ b.totalLength) (hT : b.totalLength < 4294967296) :
    ∃ ob : mag_buf,
      enqueuedBlocks (callbackRun env st (fails ++ [c])).2 = [ob] ∧
      ob.flags = env.MAGBUF_DISCONTINUOUS ∧
      ob.dropped = totalSamples fails % 4294967296 ∧
      (callbackRun env st (fails ++ [c])).1.dropped = 0 := by
  have h := callbackRun_all_dropped env fails st hf (by omega)
  rw [hst, Nat.zero_add] at h
  have hd : (callbackRun env st fails).1.dropped ≠ 0 := by rw [h.1]; exact hnz
  rw [callbackRun_append]
  simp only [callbackRun, List.append_nil]
  rw [usrpCallback_some env _ c.buf c.len c.world p b hs ha, enqueuedBlocks_append, h.2]
  refine ⟨filledBlock env (callbackRun env st fails).1 c.buf (c.len / 2) c.world b, rfl, ?_, ?_, ?_⟩
  · simp [filledBlock, hd]
  · simp only [filledBlock, if_pos hd]
    exact h.1
  · exact droppedAfter_of_fit _ _ b hfit hT

/-- Witness for C3: two dropped calls of 3 and 2 samples, then a call that fits its block. -/
theorem dropped_run_then_success_witness :
    ∃ ob : mag_buf,
      enqueuedBlocks (callbackRun env0 initState
        ([droppedCall 6, droppedCall 4] ++ [⟨[], 4, poolGives 77 (blockOf 1 8)⟩])).2 = [ob] ∧
      ob.flags = env0.MAGBUF_DISCONTINUOUS ∧
      ob.dropped = totalSamples [droppedCall 6, droppedCall 4] % 4294967296 ∧
      (callbackRun env0 initState
        ([droppedCall 6, droppedCall 4] ++ [⟨[], 4, poolGives 77 (blockOf 1 8)⟩])).1.dropped = 0 :=
  dropped_run_then_success env0 initState [droppedCall 6, droppedCall 4]
    ⟨[], 4, poolGives 77 (blockOf 1 8)⟩ 77 (blockOf 1 8) rfl (by decide) (by decide)
    (by decide) rfl (by decide) (by decide)

theorem stalledCalls_all_dropped :
    ∀ f ∈ stalledCalls, 0 < f.len / 2 ∧ f.world.acquire = none := by
  intro f hf
  rw [List.eq_of_mem_replicate hf]
  exact ⟨by decide, rfl⟩

/-- C3 (counterexample to the claim as stated): from the initial state, 65536 consecutive
pool-full calls of 65536 samples each drop exactly 2^32 samples, the 32-bit counter is back at
0, and the next successful call, whose samples fit its block, enqueues a block with no flag
set (`MAGBUF_DISCONTINUOUS` being 1 here) and `dropped = 0`. -/
theorem dropped_run_flag_lost :
    initState.dropped = 0 ∧ 1 ≤ stalledCalls.length ∧
    (∀ f ∈ stalledCalls, 0 < f.len / 2 ∧ f.world.acquire = none) ∧
    0 < resumeCall.len / 2 ∧ resumeCall.world.acquire = some (77, blockOf 326 131398) ∧
    resumeCall.len / 2 + (blockOf 326 131398).overlap ≤ (blockOf 326 131398).totalLength ∧
    env0.MAGBUF_DISCONTINUOUS = 1 ∧
    (enqueuedBlocks (callbackRun env0 initState (stalledCalls ++ [resumeCall])).2).map
      (fun ob => (ob.flags, ob.dropped)) = [(0, 0)] := by
  have h := callbackRun_all_dropped env0 stalledCalls initState stalledCalls_all_dropped
    (by decide)
  have hst : (callbackRun env0 initState stalledCalls).1.dropped = 0 := by
    have h2 := callbackRun_replicate_dropped env0 131072 (by decide) 65536 initState
      (by decide) (by decide)
    show (callbackRun env0 initState (List.replicate 65536 (droppedCall 131072))).1.dropped = 0
    rw [h2]
    decide
  refine ⟨rfl, ?_, stalledCalls_all_dropped, by decide, rfl, by decide, rfl, ?_⟩
  · show 1 ≤ (List.replicate 65536 (droppedCall 131072)).length
    rw [List.length_replicate]
    decide
  · rw [callbackRun_append]
    generalize callbackRun env0 initState stalledCalls = r at h hst
    simp only [callbackRun, List.append_nil]
    rw [usrpCallback_some env0 _ resumeCall.buf resumeCall.len resumeCall.world 77
      (blockOf 326 131398) (by decide) rfl, enqueuedBlocks_append, h.2]
    simp only [enqueuedBlocks, List.nil_append, List.map, filledBlock, hst]
    rfl

theorem sub32_of_le (a b : Nat) (hab : b ≤ a) (ha : a < 4294967296) : sub32 a b = a - b := by
  unfold sub32
  rw [Nat.mod_eq_of_lt ha, Nat.mod_eq_of_lt (by omega : b < 4294967296)]
  omega

theorem filledBlock_accounting (env : Env) (st : CallbackState) (buf : List Int) (s : Nat)
    (w : CallEnv) (b : mag_buf) (hO : b.overlap ≤ b.totalLength)
    (hT : b.totalLength < 4294967296) (hS : s + b.overlap < 4294967296) :
    (filledBlock env st buf s w b).validLength = b.overlap + min s (b.totalLength - b.overlap) ∧
    to_convert s b = min s (b.totalLength - b.overlap) ∧
    droppedAfter st s b = s - to_convert s b ∧
    (filledBlock env st buf s w b).dropped = st.dropped := by
  have hm : (s + b.overlap) % 4294967296 = s + b.overlap := Nat.mod_eq_of_lt hS
  have htc : to_convert s b = min s (b.totalLength - b.overlap) := by
    unfold to_convert
    rw [hm]
    by_cases hc : s + b.overlap > b.totalLength
    · rw [if_pos hc, sub32_of_le _ _ hO hT]; omega
    · rw [if_neg hc]; omega
  refine ⟨?_, htc, ?_, ?_⟩
  · simp only [filledBlock]
    rw [htc]
    exact Nat.mod_eq_of_lt (by omega)
  · unfold droppedAfter
    rw [hm]
    by_cases hc : s + b.overlap > b.totalLength
    · rw [if_pos hc, htc, sub32_of_le _ _ (by omega) (by omega)]
    · rw [if_neg hc, htc]
      by_cases hd : st.dropped = 0 <;> simp [hd] <;> omega
  · by_cases hd : st.dropped = 0 <;> simp [filledBlock, hd]

theorem convertedSamples_append (xs ys : List mag_buf) :
    convertedSamples (xs ++ ys) = convertedSamples xs + convertedSamples ys := by
  simp [convertedSamples, List.map_append, List.sum_append]

theorem carriedDropped_append (xs ys : List mag_buf) :
    carriedDropped (xs ++ ys) = carriedDropped xs + carriedDropped ys := by
  simp [carriedDropped, List.map_append, List.sum_append]

theorem usrpCallback_step_accounting (env : Env) (st : CallbackState) (c : Call)
    (hc : callOk st c = true) :
    Nat.ModEq 18446744073709551616
      ((usrpCallback env st c.buf c.len c.world).1.sampleCounter + st.dropped)
      (st.sampleCounter
        + convertedSamples (enqueuedBlocks (usrpCallback env st c.buf c.len c.world).2)
        + carriedDropped (enqueuedBlocks (usrpCallback env st c.buf c.len c.world).2)
        + (usrpCallback env st c.buf c.len c.world).1.dropped) := by
  by_cases h0 : c.len / 2 = 0
  · rw [usrpCallback_empty env st c.buf c.len c.world h0]
    simp only [enqueuedBlocks, convertedSamples, carriedDropped, List.map_nil, List.sum_nil,
      Nat.add_zero]
    exact Nat.ModEq.refl _
  · have hs : 0 < c.len / 2 := by omega
    have h1 : Nat.ModEq 18446744073709551616
        ((st.sampleCounter + c.len / 2) % 18446744073709551616)
        (st.sampleCounter + c.len / 2) := Nat.mod_modEq _ _
    cases ha : c.world.acquire with
    | none =>
      simp only [callOk, h0, ha, if_false, decide_eq_true_eq] at hc
      rw [usrpCallback_none env st c.buf c.len c.world hs ha]
      simp only [enqueuedBlocks, convertedSamples, carriedDropped, List.map_nil, List.sum_nil,
        Nat.add_zero]
      rw [Nat.mod_eq_of_lt hc]
      refine Nat.ModEq.trans (h1.add_right _) ?_
      exact congrArg (fun x => x % 18446744073709551616) (by omega)
    | some pb =>
      obtain ⟨p, b⟩ := pb
      simp only [callOk, h0, ha, if_false, Bool.and_eq_true, decide_eq_true_eq] at hc
      obtain ⟨⟨hO, hT⟩, hS⟩ := hc
      obtain ⟨hv, htc, hda, hbd⟩ :=
        filledBlock_accounting env st c.buf (c.len / 2) c.world b hO hT hS
      rw [usrpCallback_some env st c.buf c.len c.world p b hs ha]
      have hov : (filledBlock env st c.buf (c.len / 2) c.world b).overlap = b.overlap := rfl
      simp only [enqueuedBlocks, convertedSamples, carriedDropped, List.map_cons, List.map_nil,
        List.sum_cons, List.sum_nil, Nat.add_zero]
      rw [hv, hbd, hda, htc, hov]
      refine Nat.ModEq.trans (h1.add_right _) ?_
      exact congrArg (fun x => x % 18446744073709551616) (by omega)

theorem callbackRun_accounting (env : Env) (cs : List Call) (st : CallbackState)
    (hok : runOk env st cs = true) :
    Nat.ModEq 18446744073709551616
      ((callbackRun env st cs).1.sampleCounter + st.dropped)
      (st.sampleCounter + convertedSamples (enqueuedBlocks (callbackRun env st cs).2)
        + carriedDropped (enqueuedBlocks (callbackRun env st cs).2)
        + (callbackRun env st cs).1.dropped) := by
  induction cs generalizing st with
  | nil =>
    simp only [callbackRun, enqueuedBlocks, convertedSamples, carriedDropped, List.map_nil,
      List.sum_nil, Nat.add_zero]
    exact Nat.ModEq.refl _
  | cons c cs ih =>
    simp only [runOk, Bool.and_eq_true] at hok
    obtain ⟨hc, hrest⟩ := hok
    have hstep := usrpCallback_step_accounting env st c hc
    have ih1 := ih _ hrest
    simp only [callbackRun, enqueuedBlocks_append, convertedSamples_append,
      carriedDropped_append]
    generalize usrpCallback env st c.buf c.len c.world = r at hstep ih1 ⊢
    generalize callbackRun env r.1 cs = k at ih1 ⊢
    have h := ih1.add hstep
    apply Nat.ModEq.add_right_cancel' (r.1.dropped + r.1.sampleCounter)
    refine Nat.ModEq.trans ?_ (h.trans ?_)
    · exact congrArg (fun x => x % 18446744073709551616) (by omega)
    · exact congrArg (fun x => x % 18446744073709551616) (by omega)

theorem callbackRun_sampleCounter_lt (env : Env) (cs : List Call) (st : CallbackState)
    (h : st.sampleCounter < 18446744073709551616) :
    (callbackRun env st cs).1.sampleCounter < 18446744073709551616 := by
  induction cs generalizing st with
  | nil => simpa [callbackRun] using h
  | cons c cs ih =>
    simp only [callbackRun]
    apply ih
    by_cases h0 : c.len / 2 = 0
    · rw [usrpCallback_empty env st c.buf c.len c.world h0]; exact h
    · cases ha : c.world.acquire with
      | none =>
        rw [usrpCallback_none env st c.buf c.len c.world (by omega) ha]
        exact Nat.mod_lt _ (by decide)
      | some pb =>
        obtain ⟨p, b⟩ := pb
        rw [usrpCallback_some env st c.buf c.len c.world p b (by omega) ha]
        exact Nat.mod_lt _ (by decide)

theorem callbackRun_blocks_bounds (env : Env) (cs : List Call) (st : CallbackState)
    (hok : runOk env st cs = true) :
    ∀ ob ∈ enqueuedBlocks (callbackRun env st cs).2,
      ob.overlap ≤ ob.validLength ∧ ob.validLength ≤ ob.totalLength := by
  induction cs generalizing st with
  | nil => simp [callbackRun, enqueuedBlocks]
  | cons c cs ih =>
    simp only [runOk, Bool.and_eq_true] at hok
    obtain ⟨hc, hrest⟩ := hok
    have ih1 := ih _ hrest
    simp only [callbackRun, enqueuedBlocks_append]
    intro ob hob
    rcases List.mem_append.mp hob with h | h
    · by_cases h0 : c.len / 2 = 0
      · rw [usrpCallback_empty env st c.buf c.len c.world h0] at h
        simp [enqueuedBlocks] at h
      · have hs : 0 < c.len / 2 := by omega
        cases ha : c.world.acquire with
        | none =>
          rw [usrpCallback_none env st c.buf c.len c.world hs ha] at h
          simp [enqueuedBlocks] at h
        | some pb =>
          obtain ⟨p, b⟩ := pb
          simp only [callOk, h0, ha, if_false, Bool.and_eq_true, decide_eq_true_eq] at hc
          obtain ⟨⟨hO, hT⟩, hS⟩ := hc
          rw [usrpCallback_some env st c.buf c.len c.world p b hs ha] at h
          simp only [enqueuedBlocks, List.mem_singleton] at h
          have hv := (filledBlock_accounting env st c.buf (c.len / 2) c.world b hO hT hS).1
          have hov : (filledBlock env st c.buf (c.len / 2) c.world b).overlap = b.overlap := rfl
          have htl : (filledBlock env st c.buf (c.len / 2) c.world b).totalLength
              = b.totalLength := rfl
          rw [h, hv, hov, htl]
          omega
    · exact ih1 ob h

/-- C4 (as amended): for every finite sequence of calls from the initial state in which every
acquired block has `overlap <= totalLength` and `samples_read + overlap < 2^32`, and in which
the dropped counter never overflows 32 bits, `sampleCounter` equals, modulo 2^64, the sum over
the enqueued blocks of `validLength - overlap`, plus the sum of their `dropped` fields, plus the
pending dropped count; and every enqueued block has `overlap <= validLength <= totalLength`. -/
theorem sample_accounting (env : Env) (cs : List Call)
    (hok : runOk env initState cs = true) :
    (callbackRun env initState cs).1.sampleCounter =
      (convertedSamples (enqueuedBlocks (callbackRun env initState cs).2)
        + carriedDropped (enqueuedBlocks (callbackRun env initState cs).2)
        + (callbackRun env initState cs).1.dropped) % 18446744073709551616 ∧
    ∀ ob ∈ enqueuedBlocks (callbackRun env initState cs).2,
      ob.overlap ≤ ob.validLength ∧ ob.validLength ≤ ob.totalLength := by
  refine ⟨?_, callbackRun_blocks_bounds env cs initState hok⟩
  have h := callbackRun_accounting env cs initState hok
  have hlt := callbackRun_sampleCounter_lt env cs initState (by decide)
  simp only [initState, Nat.add_zero, Nat.zero_add] at h
  have h2 : (callbackRun env initState cs).1.sampleCounter % 18446744073709551616 = _ := h
  rw [Nat.mod_eq_of_lt hlt] at h2
  exact h2

/-- Witness for C4: the four calls of `sessionCalls`. -/
theorem sample_accounting_witness :
    (callbackRun env0 initState sessionCalls).1.sampleCounter =
      (convertedSamples (enqueuedBlocks (callbackRun env0 initState sessionCalls).2)
        + carriedDropped (enqueuedBlocks (callbackRun env0 initState sessionCalls).2)
        + (callbackRun env0 initState sessionCalls).1.dropped) % 18446744073709551616 ∧
    ∀ ob ∈ enqueuedBlocks (callbackRun env0 initState sessionCalls).2,
      ob.overlap ≤ ob.validLength ∧ ob.validLength ≤ ob.totalLength :=
  sample_accounting env0 sessionCalls (by decide)

theorem exactFit_run (env : Env) (n : Nat) (st : CallbackState) :
    runOk env st (List.replicate n exactFitCall) = true ∧
    convertedSamples (enqueuedBlocks (callbackRun env st (List.replicate n exactFitCall)).2)
      = n * 2147483647 := by
  induction n generalizing st with
  | zero =>
    refine ⟨rfl, ?_⟩
    rw [Nat.zero_mul]
    rfl
  | succ n ih =>
    have hlen : exactFitCall.len / 2 = 2147483647 := by decide
    have hO : (blockOf 0 2147483647).overlap = 0 := rfl
    have hT : (blockOf 0 2147483647).totalLength = 2147483647 := rfl
    have hstep := usrpCallback_some env st exactFitCall.buf exactFitCall.len exactFitCall.world
      77 (blockOf 0 2147483647) (by rw [hlen]; decide) rfl
    have hv := (filledBlock_accounting env st exactFitCall.buf (exactFitCall.len / 2)
      exactFitCall.world (blockOf 0 2147483647) (by rw [hO]; exact Nat.zero_le _)
      (by rw [hT]; decide) (by rw [hlen, hO]; decide)).1
    have hov : (filledBlock env st exactFitCall.buf 2147483647
      exactFitCall.world (blockOf 0 2147483647)).overlap = 0 := rfl
    rw [hlen, hO, hT] at hv
    refine ⟨?_, ?_⟩
    · have hc : callOk st exactFitCall = true := by
        have ha : exactFitCall.world.acquire = some (77, blockOf 0 2147483647) := rfl
        simp only [callOk, hlen, ha, hO, hT]
        decide
      simp only [List.replicate, runOk, Bool.and_eq_true]
      exact ⟨hc, (ih _).1⟩
    · simp only [List.replicate, callbackRun, enqueuedBlocks_append, convertedSamples_append]
      rw [(ih _).2, hstep]
      simp only [enqueuedBlocks, convertedSamples, List.map_cons, List.map_nil, List.sum_cons,
        List.sum_nil]
      rw [hlen, hov, hv]
      omega

/-- C4 (counterexample to the claim as stated), in two parts. (a) A single call from the
initial state with `2^31 - 1` samples acquires a block with
`overlap = 2^31 + 2 <= totalLength = 2^32 - 1`. The 32-bit sum `to_convert + overlap` wraps to
1, nothing is clamped, the block is enqueued with `validLength = 1` and `dropped = 0`, nothing
is pending, and `sampleCounter = 2^31 - 1` is not the claimed sum, whether
`validLength - overlap` is read in the naturals or in the integers. (b) In `longSession` every
call fits its block exactly and nothing is ever dropped, so all side conditions hold, also
`samples_read + overlap < 2^32`; the blocks hold `(2^33 + 5) * (2^31 - 1) >= 2^64` converted
samples, more than the 64-bit `sampleCounter` can show. -/
theorem sample_accounting_fails_on_wrap :
    ((blockOf 2147483650 4294967295).overlap ≤ (blockOf 2147483650 4294967295).totalLength ∧
     wrapCall.world.acquire = some (77, blockOf 2147483650 4294967295) ∧
     (callbackRun env0 initState [wrapCall]).1 = { dropped := 0, sampleCounter := 2147483647 } ∧
     (enqueuedBlocks (callbackRun env0 initState [wrapCall]).2).map
       (fun b => (b.validLength, b.overlap, b.dropped)) = [(1, 2147483650, 0)] ∧
     (callbackRun env0 initState [wrapCall]).1.sampleCounter ≠
       convertedSamples (enqueuedBlocks (callbackRun env0 initState [wrapCall]).2)
         + carriedDropped (enqueuedBlocks (callbackRun env0 initState [wrapCall]).2)
         + (callbackRun env0 initState [wrapCall]).1.dropped ∧
     ((callbackRun env0 initState [wrapCall]).1.sampleCounter : Int) ≠
       convertedSamplesInt (enqueuedBlocks (callbackRun env0 initState [wrapCall]).2)
         + carriedDropped (enqueuedBlocks (callbackRun env0 initState [wrapCall]).2)
         + (callbackRun env0 initState [wrapCall]).1.dropped) ∧
    (runOk env0 initState longSession = true ∧
     (callbackRun env0 initState longSession).1.sampleCounter ≠
       convertedSamples (enqueuedBlocks (callbackRun env0 initState longSession).2)
         + carriedDropped (enqueuedBlocks (callbackRun env0 initState longSession).2)
         + (callbackRun env0 initState longSession).1.dropped) := by
  refine ⟨by decide, (exactFit_run env0 8589934597 initState).1, ?_⟩
  have hlt := callbackRun_sampleCounter_lt env0 longSession initState (by decide)
  have hconv : convertedSamples (enqueuedBlocks (callbackRun env0 initState longSession).2)
      = 8589934597 * 2147483647 := (exactFit_run env0 8589934597 initState).2
  rw [hconv]
  omega

/-- C5 (the code at the failing input): `usrpRun` receives a full buffer of 131072 complex
samples without error and passes it to `usrpCallback` with `len = 131072`; the pool hands out a
block with room for all of them. The callback asks the converter for 65536 samples, enqueues the
block with `validLength - overlap = 65536`, adds nothing to the dropped counter and advances
`sampleCounter` by 65536: converted plus dropped is `n / 2`, not `n`. -/
theorem usrpRun_accounts_half_of_block :
    fullBufferIteration.num_rx_samps = 131072 ∧
    fullBufferIteration.error_code = ErrorCode.ERROR_CODE_NONE ∧
    131072 + (blockOf 326 131398).overlap ≤ (blockOf 326 131398).totalLength ∧
    convertRequests (usrpRun env0 [] initState [fullBufferIteration]).fifo = [(77, 326, 65536)] ∧
    (enqueuedBlocks (usrpRun env0 [] initState [fullBufferIteration]).fifo).map
      (fun b => (b.validLength - b.overlap, b.dropped)) = [(65536, 0)] ∧
    (usrpRun env0 [] initState [fullBufferIteration]).state.cb
      = { dropped := 0, sampleCounter := 65536 } ∧
    65536 + ((usrpRun env0 [] initState [fullBufferIteration]).state.cb.dropped
              - initState.dropped) ≠ fullBufferIteration.num_rx_samps := by
  decide

theorem writeSamples_take (data : List Nat) (off n : Nat) (mag : Nat → Nat) :
    (writeSamples data off n mag).take off = data.take off := by
  unfold writeSamples
  rw [List.take_append_eq_append_take, List.take_take, Nat.min_self, List.length_take]
  by_cases h : off ≤ data.length
  · rw [Nat.min_eq_left h, Nat.sub_self, List.take_zero, List.append_nil]
  · have h1 : data.length - off = 0 := by omega
    have h2 : data.drop (off + n) = [] := List.drop_eq_nil_of_le (by omega)
    rw [h1, h2]
    simp

/-- C6 (as amended): for every successful acquire of a block with `overlap <= totalLength`
(a 32-bit value) and `samples_read + overlap < 2^32`, the block is enqueued with
`validLength = overlap + min(samples_read, totalLength - overlap)`, hence
`overlap <= validLength <= totalLength`; the one converter request of the call asks for exactly
`validLength - overlap` samples at index `overlap`; and the first `overlap` samples of the
block are as they were. -/
theorem usrpCallback_valid_length (env : Env) (st : CallbackState) (buf : List Int)
    (len : Nat) (w : CallEnv) (p : Nat) (b : mag_buf)
    (hs : 0 < len / 2) (ha : w.acquire = some (p, b))
    (hO : b.overlap ≤ b.totalLength) (hT : b.totalLength < 4294967296)
    (hS : len / 2 + b.overlap < 4294967296) :
    ∃ ob : mag_buf,
      enqueuedBlocks (usrpCallback env st buf len w).2 = [ob] ∧
      ob.overlap = b.overlap ∧ ob.totalLength = b.totalLength ∧
      ob.validLength = b.overlap + min (len / 2) (b.totalLength - b.overlap) ∧
      ob.overlap ≤ ob.validLength ∧ ob.validLength ≤ ob.totalLength ∧
      convertRequests (usrpCallback env st buf len w).2
        = [(p, ob.overlap, ob.validLength - ob.overlap)] ∧
      ob.data.take ob.overlap = b.data.take b.overlap := by
  obtain ⟨hv, htc, -, -⟩ := filledBlock_accounting env st buf (len / 2) w b hO hT hS
  rw [usrpCallback_some env st buf len w p b hs ha]
  refine ⟨filledBlock env st buf (len / 2) w b, rfl, rfl, rfl, hv, ?_, ?_, ?_, ?_⟩
  · rw [hv]; exact Nat.le_add_right _ _
  · rw [hv]
    show b.overlap + min (len / 2) (b.totalLength - b.overlap) ≤ b.totalLength
    omega
  · simp only [convertRequests]
    rw [hv, htc]
    show _ = [(p, b.overlap, b.overlap + min (len / 2) (b.totalLength - b.overlap) - b.overlap)]
    rw [Nat.add_sub_cancel_left]
  · exact writeSamples_take _ _ _ _

/-- Witness for C6: 10 samples into a block with overlap 1 and room for 7 more. -/
theorem usrpCallback_valid_length_witness :
    ∃ ob : mag_buf,
      enqueuedBlocks (usrpCallback env0 initState [] 20 (poolGives 78 (blockOf 1 8))).2 = [ob] ∧
      ob.overlap = (blockOf 1 8).overlap ∧ ob.totalLength = (blockOf 1 8).totalLength ∧
      ob.validLength
        = (blockOf 1 8).overlap + min (20 / 2) ((blockOf 1 8).totalLength - (blockOf 1 8).overlap) ∧
      ob.overlap ≤ ob.validLength ∧ ob.validLength ≤ ob.totalLength ∧
      convertRequests (usrpCallback env0 initState [] 20 (poolGives 78 (blockOf 1 8))).2
        = [(78, ob.overlap, ob.validLength - ob.overlap)] ∧
      ob.data.take ob.overlap = (blockOf 1 8).data.take (blockOf 1 8).overlap :=
  usrpCallback_valid_length env0 initState [] 20 (poolGives 78 (blockOf 1 8)) 78 (blockOf 1 8)
    (by decide) rfl (by decide) (by decide) (by decide)

/-- C6 (counterexample to the claim as stated): a call with `2^31 - 1` samples acquires a block
with `overlap = 2^31 + 2 <= totalLength = 2^32 - 1`. The 32-bit sum `to_convert + overlap` wraps
to 1, so nothing is clamped: the converter is asked for all `2^31 - 1` samples at index
`overlap`, past `totalLength`, and the block is enqueued with `validLength = 1`, which is
neither `overlap + min(samples_read, totalLength - overlap) = 2^32 - 1` nor `>= overlap`. -/
theorem usrpCallback_valid_length_fails_on_wrap :
    0 < wrapCall.len / 2 ∧
    wrapCall.world.acquire = some (77, blockOf 2147483650 4294967295) ∧
    (blockOf 2147483650 4294967295).overlap ≤ (blockOf 2147483650 4294967295).totalLength ∧
    (enqueuedBlocks (usrpCallback env0 initState wrapCall.buf wrapCall.len wrapCall.world).2).map
      (fun b => (b.overlap, b.validLength, b.totalLength)) = [(2147483650, 1, 4294967295)] ∧
    convertRequests (usrpCallback env0 initState wrapCall.buf wrapCall.len wrapCall.world).2
      = [(77, 2147483650, 2147483647)] ∧
    (1 : Nat) ≠ (blockOf 2147483650 4294967295).overlap
      + min (wrapCall.len / 2)
          ((blockOf 2147483650 4294967295).totalLength - (blockOf 2147483650 4294967295).overlap) ∧
    ¬ ((blockOf 2147483650 4294967295).overlap ≤ 1) := by
  decide

theorem enqueuedPtrs_append (xs ys : List FifoEvent) :
    enqueuedPtrs (xs ++ ys) = enqueuedPtrs xs ++ enqueuedPtrs ys := by
  induction xs with
  | nil => rfl
  | cons x xs ih => cases x <;> simp [enqueuedPtrs, ih]

theorem acquiredPtrs_append (xs ys : List FifoEvent) :
    acquiredPtrs (xs ++ ys) = acquiredPtrs xs ++ acquiredPtrs ys := by
  induction xs with
  | nil => rfl
  | cons x xs ih =>
    cases x with
    | acquire r => cases r <;> simp [acquiredPtrs, ih]
    | _ => simp [acquiredPtrs, ih]

theorem usrpCallback_ptrs (env : Env) (st : CallbackState) (buf : List Int) (len : Nat)
    (w : CallEnv) :
    enqueuedPtrs (usrpCallback env st buf len w).2
      = (if len / 2 = 0 then [] else (w.acquire.map Prod.fst).toList) ∧
    acquiredPtrs (usrpCallback env st buf len w).2
      = (if len / 2 = 0 then [] else (w.acquire.map Prod.fst).toList) := by
  by_cases h0 : len / 2 = 0
  · rw [usrpCallback_empty env st buf len w h0, if_pos h0]
    exact ⟨rfl, rfl⟩
  · rw [if_neg h0]
    cases ha : w.acquire with
    | none =>
      rw [usrpCallback_none env st buf len w (by omega) ha]
      exact ⟨rfl, rfl⟩
    | some pb =>
      obtain ⟨p, b⟩ := pb
      rw [usrpCallback_some env st buf len w p b (by omega) ha]
      exact ⟨rfl, rfl⟩

/-- C7: in every call of `usrpCallback` the pointers handed to `fifo_enqueue` are exactly the
pointers obtained from `fifo_acquire` in that call: none when the input is empty
(`len/2 = 0`, no acquire is even attempted) or the acquire failed, and the one acquired pointer
otherwise; so over any sequence of calls, from any state, the enqueued pointers are exactly
the acquired pointers, in the same order. -/
theorem enqueued_are_acquired (env : Env) (st : CallbackState) (buf : List Int) (len : Nat)
    (w : CallEnv) (st0 : CallbackState) (cs : List Call) :
    enqueuedPtrs (usrpCallback env st buf len w).2
      = (if len / 2 = 0 then [] else (w.acquire.map Prod.fst).toList) ∧
    acquiredPtrs (usrpCallback env st buf len w).2
      = enqueuedPtrs (usrpCallback env st buf len w).2 ∧
    (enqueuedBlocks (usrpCallback env st buf len w).2).length
      = (enqueuedPtrs (usrpCallback env st buf len w).2).length ∧
    enqueuedPtrs (callbackRun env st0 cs).2 = acquiredPtrs (callbackRun env st0 cs).2 := by
  obtain ⟨h1, h2⟩ := usrpCallback_ptrs env st buf len w
  refine ⟨h1, by rw [h1, h2], ?_, ?_⟩
  · by_cases h0 : len / 2 = 0
    · rw [usrpCallback_empty env st buf len w h0]; rfl
    · cases ha : w.acquire with
      | none => rw [usrpCallback_none env st buf len w (by omega) ha]; rfl
      | some pb =>
        obtain ⟨p, b⟩ := pb
        rw [usrpCallback_some env st buf len w p b (by omega) ha]; rfl
  · induction cs generalizing st0 with
    | nil => rfl
    | cons c cs ih =>
      simp only [callbackRun, enqueuedPtrs_append, acquiredPtrs_append]
      rw [ih, (usrpCallback_ptrs env st0 c.buf c.len c.world).1,
        (usrpCallback_ptrs env st0 c.buf c.len c.world).2]

theorem usrpRun_loop_exit (env : Env) (st : RunState) (it : Iteration) (rest : List Iteration)
    (hx : it.exit = true) :
    usrpRun_loop env st (it :: rest) =
      { state := st, trace := [RunEvent.exitTest true], fifo := [], finished := true } := by
  simp [usrpRun_loop, hx]

theorem usrpRun_loop_none (env : Env) (st : RunState) (it : Iteration) (rest : List Iteration)
    (hx : it.exit = false) (hec : it.error_code = ErrorCode.ERROR_CODE_NONE) :
    usrpRun_loop env st (it :: rest) =
      { state := (usrpRun_loop env
          { num_acc_samps := (st.num_acc_samps + it.num_rx_samps) % 4294967296,
            readbuf := fillReadbuf st.readbuf it.buff it.num_rx_samps,
            cb := (usrpCallback env st.cb (fillReadbuf st.readbuf it.buff it.num_rx_samps)
                    it.num_rx_samps it.world).1 } rest).state
        trace := [RunEvent.exitTest false,
                  RunEvent.recv it.buff it.num_rx_samps ErrorCode.ERROR_CODE_NONE,
                  RunEvent.callback (fillReadbuf st.readbuf it.buff it.num_rx_samps)
                    it.num_rx_samps]
          ++ (usrpRun_loop env
          { num_acc_samps := (st.num_acc_samps + it.num_rx_samps) % 4294967296,
            readbuf := fillReadbuf st.readbuf it.buff it.num_rx_samps,
            cb := (usrpCallback env st.cb (fillReadbuf st.readbuf it.buff it.num_rx_samps)
                    it.num_rx_samps it.world).1 } rest).trace
        fifo := (usrpCallback env st.cb (fillReadbuf st.readbuf it.buff it.num_rx_samps)
                    it.num_rx_samps it.world).2
          ++ (usrpRun_loop env
          { num_acc_samps := (st.num_acc_samps + it.num_rx_samps) % 4294967296,
            readbuf := fillReadbuf st.readbuf it.buff it.num_rx_samps,
            cb := (usrpCallback env st.cb (fillReadbuf st.readbuf it.buff it.num_rx_samps)
                    it.num_rx_samps it.world).1 } rest).fifo
        finished := (usrpRun_loop env
          { num_acc_samps := (st.num_acc_samps + it.num_rx_samps) % 4294967296,
            readbuf := fillReadbuf st.readbuf it.buff it.num_rx_samps,
            cb := (usrpCallback env st.cb (fillReadbuf st.readbuf it.buff it.num_rx_samps)
                    it.num_rx_samps it.world).1 } rest).finished } := by
  simp [usrpRun_loop, hx, hec]

theorem usrpRun_loop_timeout_retry (env : Env) (st : RunState) (it : Iteration)
    (rest : List Iteration) (hx : it.exit = false) (hec : it.error_code = ErrorCode.ERROR_CODE_TIMEOUT)
    (hacc : st.num_acc_samps = 0) :
    usrpRun_loop env st (it :: rest) =
      { state := (usrpRun_loop env st rest).state
        trace := [RunEvent.exitTest false,
                  RunEvent.recv it.buff it.num_rx_samps ErrorCode.ERROR_CODE_TIMEOUT]
          ++ (usrpRun_loop env st rest).trace
        fifo := (usrpRun_loop env st rest).fifo
        finished := (usrpRun_loop env st rest).finished } := by
  simp [usrpRun_loop, hx, hec, hacc]

theorem usrpRun_loop_timeout_stop (env : Env) (st : RunState) (it : Iteration)
    (rest : List Iteration) (hx : it.exit = false) (hec : it.error_code = ErrorCode.ERROR_CODE_TIMEOUT)
    (hacc : st.num_acc_samps ≠ 0) :
    usrpRun_loop env st (it :: rest) =
      { state := st
        trace := [RunEvent.exitTest false,
                  RunEvent.recv it.buff it.num_rx_samps ErrorCode.ERROR_CODE_TIMEOUT]
        fifo := []
        finished := true } := by
  simp [usrpRun_loop, hx, hec, hacc]

theorem usrpRun_loop_other (env : Env) (st : RunState) (it : Iteration)
    (rest : List Iteration) (hx : it.exit = false) (code : Nat)
    (hec : it.error_code = ErrorCode.OTHER code) :
    usrpRun_loop env st (it :: rest) =
      { state := st
        trace := [RunEvent.exitTest false,
                  RunEvent.recv it.buff it.num_rx_samps (ErrorCode.OTHER code)]
        fifo := []
        finished := true } := by
  simp [usrpRun_loop, hx, hec]

theorem cons_eq_append_cons {α : Type} (e x : α) (l pre post : List α)
    (h : e :: l = pre ++ x :: post) :
    (pre = [] ∧ x = e ∧ post = l) ∨ ∃ pre1, pre = e :: pre1 ∧ l = pre1 ++ x :: post := by
  cases pre with
  | nil =>
    simp only [List.nil_append, List.cons.injEq] at h
    exact Or.inl ⟨rfl, h.1.symm, h.2.symm⟩
  | cons a pre1 =>
    simp only [List.cons_append, List.cons.injEq] at h
    exact Or.inr ⟨pre1, by rw [h.1], h.2⟩

theorem usrpRun_loop_split (env : Env) (its : List Iteration) (st : RunState)
    (pre post : List RunEvent) (x : RunEvent)
    (h : (usrpRun_loop env st its).trace = pre ++ x :: post) :
    (x = RunEvent.exitTest true → post = [] ∧ (usrpRun_loop env st its).finished = true) ∧
    (∀ buff n ec, x = RunEvent.recv buff n ec → ∃ pre1, pre = pre1 ++ [RunEvent.exitTest false]) ∧
    (∀ buff n, x = RunEvent.recv buff n ErrorCode.ERROR_CODE_NONE →
      ∃ old post1, post = RunEvent.callback (fillReadbuf old buff n) n :: post1) ∧
    (x = RunEvent.exitTest false → ∃ buff n ec post1, post = RunEvent.recv buff n ec :: post1) ∧
    x ≠ RunEvent.streamStop ∧ x ≠ RunEvent.streamStart := by
  induction its generalizing st pre post with
  | nil =>
    simp only [usrpRun_loop] at h
    exact absurd h (by simp)
  | cons it rest ih =>
    cases hx : it.exit with
    | true =>
      rw [usrpRun_loop_exit env st it rest hx] at h ⊢
      simp only at h ⊢
      rcases cons_eq_append_cons _ _ _ _ _ h with ⟨rfl, rfl, rfl⟩ | ⟨pre1, rfl, h1⟩
      · simp
      · exact absurd h1 (by simp)
    | false =>
      cases hec : it.error_code with
      | ERROR_CODE_NONE =>
        rw [usrpRun_loop_none env st it rest hx hec] at h ⊢
        simp only [List.cons_append, List.nil_append] at h ⊢
        rcases cons_eq_append_cons _ _ _ _ _ h with ⟨rfl, rfl, rfl⟩ | ⟨pre1, rfl, h1⟩
        · simp
        rcases cons_eq_append_cons _ _ _ _ _ h1 with ⟨rfl, rfl, rfl⟩ | ⟨pre2, rfl, h2⟩
        · refine ⟨by simp, fun _ _ _ _ => ⟨[], rfl⟩, ?_, by simp, by simp, by simp⟩
          intro buff n hb
          simp only [RunEvent.recv.injEq] at hb
          obtain ⟨rfl, rfl, -⟩ := hb
          exact ⟨st.readbuf, _, rfl⟩
        rcases cons_eq_append_cons _ _ _ _ _ h2 with ⟨rfl, rfl, rfl⟩ | ⟨pre3, rfl, h3⟩
        · simp
        obtain ⟨hA, hB, hC, hD, hE⟩ := ih _ _ _ h3
        refine ⟨hA, ?_, hC, hD, hE⟩
        intro buff n ec hb
        obtain ⟨q, rfl⟩ := hB buff n ec hb
        exact ⟨_ :: _ :: _ :: q, rfl⟩
      | ERROR_CODE_TIMEOUT =>
        by_cases hacc : st.num_acc_samps = 0
        · rw [usrpRun_loop_timeout_retry env st it rest hx hec hacc] at h ⊢
          simp only [List.cons_append, List.nil_append] at h ⊢
          rcases cons_eq_append_cons _ _ _ _ _ h with ⟨rfl, rfl, rfl⟩ | ⟨pre1, rfl, h1⟩
          · simp
          rcases cons_eq_append_cons _ _ _ _ _ h1 with ⟨rfl, rfl, rfl⟩ | ⟨pre2, rfl, h2⟩
          · exact ⟨by simp, fun _ _ _ _ => ⟨[], rfl⟩, by simp, by simp, by simp, by simp⟩
          obtain ⟨hA, hB, hC, hD, hE⟩ := ih _ _ _ h2
          refine ⟨hA, ?_, hC, hD, hE⟩
          intro buff n ec hb
          obtain ⟨q, rfl⟩ := hB buff n ec hb
          exact ⟨_ :: _ :: q, rfl⟩
        · rw [usrpRun_loop_timeout_stop env st it rest hx hec hacc] at h ⊢
          simp only at h ⊢
          rcases cons_eq_append_cons _ _ _ _ _ h with ⟨rfl, rfl, rfl⟩ | ⟨pre1, rfl, h1⟩
          · simp
          rcases cons_eq_append_cons _ _ _ _ _ h1 with ⟨rfl, rfl, rfl⟩ | ⟨pre2, rfl, h2⟩
          · exact ⟨by simp, fun _ _ _ _ => ⟨[], rfl⟩, by simp, by simp, by simp, by simp⟩
          · exact absurd h2 (by simp)
      | OTHER code =>
        rw [usrpRun_loop_other env st it rest hx code hec] at h ⊢
        simp only at h ⊢
        rcases cons_eq_append_cons _ _ _ _ _ h with ⟨rfl, rfl, rfl⟩ | ⟨pre1, rfl, h1⟩
        · simp
        rcases cons_eq_append_cons _ _ _ _ _ h1 with ⟨rfl, rfl, rfl⟩ | ⟨pre2, rfl, h2⟩
        · exact ⟨by simp, fun _ _ _ _ => ⟨[], rfl⟩, by simp, by simp, by simp, by simp⟩
        · exact absurd h2 (by simp)

theorem split_mid {α : Type} (a x : α) (T tail pre post : List α) (hxa : x ≠ a)
    (hxt : x ∉ tail) (h : a :: (T ++ tail) = pre ++ x :: post) :
    ∃ pre1 post1, T = pre1 ++ x :: post1 ∧ pre = a :: pre1 ∧ post = post1 ++ tail := by
  rcases cons_eq_append_cons a x _ pre post h with ⟨_, hx, _⟩ | ⟨pre1, rfl, h1⟩
  · exact absurd hx hxa
  · rcases List.append_eq_append_iff.mp h1 with ⟨a1, _, ht⟩ | ⟨c1, hT, hc⟩
    · exact absurd (by rw [ht]; simp) hxt
    · cases c1 with
      | nil =>
        simp only [List.nil_append] at hc
        exact absurd (by rw [← hc]; simp) hxt
      | cons c c2 =>
        simp only [List.cons_append, List.cons.injEq] at hc
        obtain ⟨rfl, rfl⟩ := hc
        exact ⟨pre1, c2, hT, rfl, rfl⟩

theorem usrpRun_loop_no_stop (env : Env) (its : List Iteration) (st : RunState) :
    RunEvent.streamStop ∉ (usrpRun_loop env st its).trace := by
  intro hmem
  obtain ⟨pre, post, h⟩ := List.append_of_mem hmem
  exact (usrpRun_loop_split env its st pre post _ h).2.2.2.2.1 rfl

theorem usrpRun_loop_finishes (env : Env) (its : List Iteration) (st : RunState)
    (h : ∃ it ∈ its, it.exit = true ∨ ∃ code, it.error_code = ErrorCode.OTHER code) :
    (usrpRun_loop env st its).finished = true := by
  induction its generalizing st with
  | nil =>
    obtain ⟨it, hit, _⟩ := h
    simp at hit
  | cons it rest ih =>
    cases hx : it.exit with
    | true => rw [usrpRun_loop_exit env st it rest hx]
    | false =>
      have hrest : it.error_code = ErrorCode.ERROR_CODE_NONE ∨ it.error_code = ErrorCode.ERROR_CODE_TIMEOUT →
          ∃ it1 ∈ rest, it1.exit = true ∨ ∃ code, it1.error_code = ErrorCode.OTHER code := by
        intro hne
        obtain ⟨it1, hit1, hp⟩ := h
        rcases List.mem_cons.mp hit1 with rfl | hmem
        · rcases hp with hp | ⟨code, hp⟩
          · rw [hx] at hp
            exact absurd hp (by simp)
          · rcases hne with hne | hne <;> rw [hne] at hp <;> exact absurd hp (by simp)
        · exact ⟨it1, hmem, hp⟩
      cases hec : it.error_code with
      | ERROR_CODE_NONE =>
        rw [usrpRun_loop_none env st it rest hx hec]
        exact ih _ (hrest (Or.inl hec))
      | ERROR_CODE_TIMEOUT =>
        by_cases hacc : st.num_acc_samps = 0
        · rw [usrpRun_loop_timeout_retry env st it rest hx hec hacc]
          exact ih _ (hrest (Or.inr hec))
        · rw [usrpRun_loop_timeout_stop env st it rest hx hec hacc]
      | OTHER code => rw [usrpRun_loop_other env st it rest hx code hec]

theorem usrpRun_trace_eq (env : Env) (readbuf : List Int) (cb : CallbackState)
    (its : List Iteration) :
    (usrpRun env readbuf cb its).trace =
      RunEvent.streamStart ::
        ((usrpRun_loop env { num_acc_samps := 0, readbuf := readbuf, cb := cb } its).trace
          ++ (if (usrpRun env readbuf cb its).finished = true then [RunEvent.streamStop]
              else [])) := by
  simp [usrpRun]

/-- The order of events in every run of `usrpRun`, whatever the environment answers (how much
of the received block the callback then uses is not part of this statement): (1) every receive is
immediately preceded by a test of `Modes.exit` that found it clear, and every such test is
immediately followed by a receive, so the flag is tested once before each block is received;
(2) after a test that finds the flag set the only further event is the stop-streaming command:
no receive, no callback; (3) a block received without error is immediately passed to
`usrpCallback`, with the buffer just filled from it and `len = num_rx_samps`, before anything
else happens; (4) the stop-streaming command is issued exactly once, as the last event, if the
loop has been left, and not at all while it is still running; (5) the loop is left as soon as
the environment raises the exit flag or reports an error other than a timeout. -/
theorem usrpRun_exit_protocol (env : Env) (readbuf : List Int) (cb : CallbackState)
    (its : List Iteration) :
    (∀ pre post buff n ec,
      (usrpRun env readbuf cb its).trace = pre ++ RunEvent.recv buff n ec :: post →
      ∃ pre1, pre = pre1 ++ [RunEvent.exitTest false]) ∧
    (∀ pre post,
      (usrpRun env readbuf cb its).trace = pre ++ RunEvent.exitTest false :: post →
      ∃ buff n ec post1, post = RunEvent.recv buff n ec :: post1) ∧
    (∀ pre post,
      (usrpRun env readbuf cb its).trace = pre ++ RunEvent.exitTest true :: post →
      post = [RunEvent.streamStop]) ∧
    (∀ pre post buff n,
      (usrpRun env readbuf cb its).trace = pre ++ RunEvent.recv buff n ErrorCode.ERROR_CODE_NONE :: post →
      ∃ old post1, post = RunEvent.callback (fillReadbuf old buff n) n :: post1) ∧
    (usrpRun env readbuf cb its).trace.count RunEvent.streamStop
      = (if (usrpRun env readbuf cb its).finished = true then 1 else 0) ∧
    ((usrpRun env readbuf cb its).finished = true →
      (usrpRun env readbuf cb its).trace.getLast? = some RunEvent.streamStop) ∧
    ((∃ it ∈ its, it.exit = true ∨ ∃ code, it.error_code = ErrorCode.OTHER code) →
      (usrpRun env readbuf cb its).finished = true) := by
  have hfin : (usrpRun env readbuf cb its).finished
      = (usrpRun_loop env { num_acc_samps := 0, readbuf := readbuf, cb := cb } its).finished :=
    rfl
  have htail : ∀ x : RunEvent, x ≠ RunEvent.streamStop →
      x ∉ (if (usrpRun env readbuf cb its).finished = true then [RunEvent.streamStop]
            else []) := by
    intro x hx hmem
    by_cases hf : (usrpRun env readbuf cb its).finished = true
    · rw [if_pos hf] at hmem
      exact hx (List.mem_singleton.mp hmem)
    · rw [if_neg hf] at hmem
      simp at hmem
  refine ⟨?_, ?_, ?_, ?_, ?_, ?_, ?_⟩
  · intro pre post buff n ec h
    rw [usrpRun_trace_eq] at h
    obtain ⟨pre1, post1, hT, rfl, -⟩ :=
      split_mid _ _ _ _ _ _ (by simp) (htail _ (by simp)) h
    obtain ⟨q, rfl⟩ := (usrpRun_loop_split env its _ pre1 post1 _ hT).2.1 buff n ec rfl
    exact ⟨RunEvent.streamStart :: q, rfl⟩
  · intro pre post h
    rw [usrpRun_trace_eq] at h
    obtain ⟨pre1, post1, hT, -, rfl⟩ :=
      split_mid _ _ _ _ _ _ (by simp) (htail _ (by simp)) h
    obtain ⟨buff, n, ec, q, rfl⟩ := (usrpRun_loop_split env its _ pre1 post1 _ hT).2.2.2.1 rfl
    exact ⟨buff, n, ec, _, rfl⟩
  · intro pre post h
    rw [usrpRun_trace_eq] at h
    obtain ⟨pre1, post1, hT, -, rfl⟩ :=
      split_mid _ _ _ _ _ _ (by simp) (htail _ (by simp)) h
    obtain ⟨rfl, hf⟩ := (usrpRun_loop_split env its _ pre1 post1 _ hT).1 rfl
    rw [hfin, if_pos hf]
    rfl
  · intro pre post buff n h
    rw [usrpRun_trace_eq] at h
    obtain ⟨pre1, post1, hT, -, rfl⟩ :=
      split_mid _ _ _ _ _ _ (by simp) (htail _ (by simp)) h
    obtain ⟨old, q, rfl⟩ := (usrpRun_loop_split env its _ pre1 post1 _ hT).2.2.1 buff n rfl
    exact ⟨old, _, rfl⟩
  · rw [usrpRun_trace_eq, List.count_cons, List.count_append,
      List.count_eq_zero_of_not_mem (usrpRun_loop_no_stop env its _)]
    by_cases hf : (usrpRun env readbuf cb its).finished = true
    · simp [hf]
    · simp [hf]
  · intro hf
    rw [usrpRun_trace_eq, if_pos hf, ← List.cons_append, List.getLast?_append]
    rfl
  · intro h
    rw [hfin]
    exact usrpRun_loop_finishes env its _ h

/-- The order of events at one good pass followed by a pass that finds the exit flag set (a third pass is
offered by the environment and never used). -/
theorem usrpRun_exit_protocol_witness :
    (usrpRun env0 [] initState [goodIteration, exitIteration, goodIteration]).trace =
      [RunEvent.streamStart, RunEvent.exitTest false,
       RunEvent.recv [(3, -4), (5, 6)] 2 ErrorCode.ERROR_CODE_NONE, RunEvent.callback [3, -4, 5, 6] 2,
       RunEvent.exitTest true, RunEvent.streamStop] ∧
    (usrpRun env0 [] initState [goodIteration, exitIteration, goodIteration]).finished = true ∧
    (usrpRun env0 [] initState [goodIteration, exitIteration, goodIteration]).trace.count
      RunEvent.streamStop = 1 :=
  ⟨by decide,
   (usrpRun_exit_protocol env0 [] initState [goodIteration, exitIteration, goodIteration]).2.2.2.2.2.2
     ⟨exitIteration, by simp, Or.inl rfl⟩,
   by
     rw [(usrpRun_exit_protocol env0 [] initState
       [goodIteration, exitIteration, goodIteration]).2.2.2.2.1]
     decide⟩

/-- C11: the `datasource_t` values increase in the order of the header,
`SOURCE_INVALID = 0 < SOURCE_MODE_AC < SOURCE_MLAT < SOURCE_MODE_S < SOURCE_MODE_S_CHECKED <
SOURCE_TISB < SOURCE_ADSR < SOURCE_ADSB`; every source other than `SOURCE_INVALID` has a value
strictly greater than it, and no source has a value above `SOURCE_ADSB`. -/
theorem datasource_priority_order (s : datasource_t) :
    datasource_t.SOURCE_INVALID.val = 0 ∧
    datasource_t.SOURCE_INVALID.val < datasource_t.SOURCE_MODE_AC.val ∧
    datasource_t.SOURCE_MODE_AC.val < datasource_t.SOURCE_MLAT.val ∧
    datasource_t.SOURCE_MLAT.val < datasource_t.SOURCE_MODE_S.val ∧
    datasource_t.SOURCE_MODE_S.val < datasource_t.SOURCE_MODE_S_CHECKED.val ∧
    datasource_t.SOURCE_MODE_S_CHECKED.val < datasource_t.SOURCE_TISB.val ∧
    datasource_t.SOURCE_TISB.val < datasource_t.SOURCE_ADSR.val ∧
    datasource_t.SOURCE_ADSR.val < datasource_t.SOURCE_ADSB.val ∧
    (s ≠ datasource_t.SOURCE_INVALID → datasource_t.SOURCE_INVALID.val < s.val) ∧
    s.val ≤ datasource_t.SOURCE_ADSB.val ∧
    (s.val = datasource_t.SOURCE_ADSB.val → s = datasource_t.SOURCE_ADSB) := by
  refine ⟨rfl, by decide, by decide, by decide, by decide, by decide, by decide, by decide,
    ?_, ?_, ?_⟩ <;> cases s <;> simp [datasource_t.val]

/-- C12 (the code at the failing input): the sensor is in the list and the deadline is tick
10. It reads locked at tick 1 and unlocked at tick 2, both before the deadline; the third pass
starts at tick 11 with `lock_detected` still set, so the function returns true after two
queries, although the reading after the first locked one was unlocked. -/
theorem check_locked_sensor_accepts_lost_lock :
    check_locked_sensor ["ref_locked", "lo_locked"] "lo_locked" 0 10 flickerPolls
      = { outcome := SensorOutcome.returned true, iterations := 3, queries := 2 } ∧
    (flickerPolls.take 2).map (fun p => (p.locked, decide (p.now_else > 0 + 10)))
      = [(true, false), (false, false)] ∧
    clockMonotone 0 flickerPolls = true := by
  decide

/-- C13: a call of `usrpCallback` with `len < 2` only calls `sdrMonitor`: no `fifo_acquire`,
no converter request, no `fifo_enqueue`, and the two statics are left as they were. -/
theorem usrpCallback_short_input (env : Env) (st : CallbackState) (buf : List Int) (len : Nat)
    (w : CallEnv) (hlen : len < 2) :
    (usrpCallback env st buf len w).1 = st ∧
    (usrpCallback env st buf len w).1.dropped = st.dropped ∧
    (usrpCallback env st buf len w).1.sampleCounter = st.sampleCounter ∧
    (usrpCallback env st buf len w).2 = [FifoEvent.monitor] ∧
    (∀ r, FifoEvent.acquire r ∉ (usrpCallback env st buf len w).2) ∧
    acquiredPtrs (usrpCallback env st buf len w).2 = [] ∧
    enqueuedPtrs (usrpCallback env st buf len w).2 = [] ∧
    enqueuedBlocks (usrpCallback env st buf len w).2 = [] := by
  have h0 : len / 2 = 0 := by omega
  rw [usrpCallback_empty env st buf len w h0]
  refine ⟨rfl, rfl, rfl, rfl, ?_, rfl, rfl, rfl⟩
  intro r hr
  simp at hr

/-- Witness for C13: `len = 1` with 7 samples pending, while the pool has a block to offer. -/
theorem usrpCallback_short_input_witness :
    (usrpCallback env0 ⟨7, 9⟩ [5] 1 (poolGives 77 (blockOf 1 8))).1 = ⟨7, 9⟩ ∧
    (usrpCallback env0 ⟨7, 9⟩ [5] 1 (poolGives 77 (blockOf 1 8))).1.dropped
      = (⟨7, 9⟩ : CallbackState).dropped ∧
    (usrpCallback env0 ⟨7, 9⟩ [5] 1 (poolGives 77 (blockOf 1 8))).1.sampleCounter
      = (⟨7, 9⟩ : CallbackState).sampleCounter ∧
    (usrpCallback env0 ⟨7, 9⟩ [5] 1 (poolGives 77 (blockOf 1 8))).2 = [FifoEvent.monitor] ∧
    (∀ r, FifoEvent.acquire r ∉ (usrpCallback env0 ⟨7, 9⟩ [5] 1 (poolGives 77 (blockOf 1 8))).2) ∧
    acquiredPtrs (usrpCallback env0 ⟨7, 9⟩ [5] 1 (poolGives 77 (blockOf 1 8))).2 = [] ∧
    enqueuedPtrs (usrpCallback env0 ⟨7, 9⟩ [5] 1 (poolGives 77 (blockOf 1 8))).2 = [] ∧
    enqueuedBlocks (usrpCallback env0 ⟨7, 9⟩ [5] 1 (poolGives 77 (blockOf 1 8))).2 = [] :=
  usrpCallback_short_input env0 ⟨7, 9⟩ [5] 1 (poolGives 77 (blockOf 1 8)) (by decide)

theorem check_locked_loop_break (d : Nat) (ld : Bool) (p : Poll) (ps : List Poll)
    (h1 : (ld && decide (p.now_head > d)) = true) :
    check_locked_loop d ld (p :: ps) =
      { outcome := SensorOutcome.returned true, iterations := 1, queries := 0 } := by
  simp only [check_locked_loop, h1, if_true]

theorem check_locked_loop_locked (d : Nat) (ld : Bool) (p : Poll) (ps : List Poll)
    (h1 : (ld && decide (p.now_head > d)) = false) (h2 : p.locked = true) :
    check_locked_loop d ld (p :: ps) =
      { outcome := (check_locked_loop d true ps).outcome
        iterations := (check_locked_loop d true ps).iterations + 1
        queries := (check_locked_loop d true ps).queries + 1 } := by
  simp [check_locked_loop, h1, h2]

theorem check_locked_loop_throw (d : Nat) (ld : Bool) (p : Poll) (ps : List Poll)
    (h1 : (ld && decide (p.now_head > d)) = false) (h2 : p.locked = false)
    (h3 : p.now_else > d) :
    check_locked_loop d ld (p :: ps) =
      { outcome := SensorOutcome.threw, iterations := 1, queries := 1 } := by
  simp [check_locked_loop, h1, h2, h3]

theorem check_locked_loop_unlocked (d : Nat) (ld : Bool) (p : Poll) (ps : List Poll)
    (h1 : (ld && decide (p.now_head > d)) = false) (h2 : p.locked = false)
    (h3 : ¬ p.now_else > d) :
    check_locked_loop d ld (p :: ps) =
      { outcome := (check_locked_loop d ld ps).outcome
        iterations := (check_locked_loop d ld ps).iterations + 1
        queries := (check_locked_loop d ld ps).queries + 1 } := by
  simp [check_locked_loop, h1, h2, h3]

theorem check_locked_loop_not_false (d : Nat) (polls : List Poll) (ld : Bool) :
    (check_locked_loop d ld polls).outcome ≠ SensorOutcome.returned false := by
  induction polls generalizing ld with
  | nil => simp [check_locked_loop]
  | cons p ps ih =>
    cases h1 : (ld && decide (p.now_head > d)) with
    | true => rw [check_locked_loop_break d ld p ps h1]; simp
    | false =>
      cases h2 : p.locked with
      | true => rw [check_locked_loop_locked d ld p ps h1 h2]; exact ih true
      | false =>
        by_cases h3 : p.now_else > d
        · rw [check_locked_loop_throw d ld p ps h1 h2 h3]; simp
        · rw [check_locked_loop_unlocked d ld p ps h1 h2 h3]; exact ih ld

theorem check_locked_loop_append (d : Nat) (pre xs : List Poll) (ld : Bool)
    (h : (check_locked_loop d ld pre).outcome = SensorOutcome.running) :
    check_locked_loop d ld (pre ++ xs) =
      { outcome := (check_locked_loop d (ld || pre.any fun p => p.locked) xs).outcome
        iterations :=
          (check_locked_loop d (ld || pre.any fun p => p.locked) xs).iterations + pre.length
        queries :=
          (check_locked_loop d (ld || pre.any fun p => p.locked) xs).queries + pre.length } := by
  induction pre generalizing ld with
  | nil => simp
  | cons p ps ih =>
    rw [List.cons_append]
    cases h1 : (ld && decide (p.now_head > d)) with
    | true =>
      rw [check_locked_loop_break d ld p ps h1] at h
      exact absurd h (by simp)
    | false =>
      cases h2 : p.locked with
      | true =>
        rw [check_locked_loop_locked d ld p ps h1 h2] at h
        rw [check_locked_loop_locked d ld p (ps ++ xs) h1 h2, ih true h]
        simp [h2, Nat.add_assoc]
      | false =>
        by_cases h3 : p.now_else > d
        · rw [check_locked_loop_throw d ld p ps h1 h2 h3] at h
          exact absurd h (by simp)
        · rw [check_locked_loop_unlocked d ld p ps h1 h2 h3] at h
          rw [check_locked_loop_unlocked d ld p (ps ++ xs) h1 h2 h3, ih ld h]
          simp [h2, Nat.add_assoc]

theorem check_locked_loop_append_done (d : Nat) (pre xs : List Poll) (ld : Bool)
    (h : (check_locked_loop d ld pre).outcome ≠ SensorOutcome.running) :
    check_locked_loop d ld (pre ++ xs) = check_locked_loop d ld pre := by
  induction pre generalizing ld with
  | nil => simp [check_locked_loop] at h
  | cons p ps ih =>
    rw [List.cons_append]
    cases h1 : (ld && decide (p.now_head > d)) with
    | true =>
      rw [check_locked_loop_break d ld p ps h1, check_locked_loop_break d ld p (ps ++ xs) h1]
    | false =>
      cases h2 : p.locked with
      | true =>
        rw [check_locked_loop_locked d ld p ps h1 h2] at h ⊢
        rw [check_locked_loop_locked d ld p (ps ++ xs) h1 h2, ih true h]
      | false =>
        by_cases h3 : p.now_else > d
        · rw [check_locked_loop_throw d ld p ps h1 h2 h3,
            check_locked_loop_throw d ld p (ps ++ xs) h1 h2 h3]
        · rw [check_locked_loop_unlocked d ld p ps h1 h2 h3] at h ⊢
          rw [check_locked_loop_unlocked d ld p (ps ++ xs) h1 h2 h3, ih ld h]

theorem clockMonotone_mid (t : Nat) (pre : List Poll) (p q : Poll) (rest : List Poll)
    (h : clockMonotone t (pre ++ p :: q :: rest) = true) :
    p.now_head ≤ p.now_else ∧ p.now_else ≤ q.now_head := by
  induction pre generalizing t with
  | nil =>
    simp only [List.nil_append, clockMonotone, Bool.and_eq_true, decide_eq_true_eq] at h
    exact ⟨h.1.2, h.2.1.1⟩
  | cons x xs ih =>
    simp only [List.cons_append, clockMonotone, Bool.and_eq_true, decide_eq_true_eq] at h
    exact ih _ h.2

theorem check_locked_loop_threw (d : Nat) (polls : List Poll) (ld : Bool)
    (h : (check_locked_loop d ld polls).outcome = SensorOutcome.threw) :
    ∃ a x b, polls = a ++ x :: b ∧ x.locked = false ∧ d < x.now_else ∧
      (check_locked_loop d ld polls).iterations = a.length + 1 ∧
      (check_locked_loop d ld polls).queries = a.length + 1 := by
  induction polls generalizing ld with
  | nil => simp [check_locked_loop] at h
  | cons p ps ih =>
    cases h1 : (ld && decide (p.now_head > d)) with
    | true =>
      rw [check_locked_loop_break d ld p ps h1] at h
      exact absurd h (by simp)
    | false =>
      cases h2 : p.locked with
      | true =>
        rw [check_locked_loop_locked d ld p ps h1 h2] at h ⊢
        obtain ⟨a, x, b, hps, hx, hd, hi, hq⟩ := ih true h
        exact ⟨p :: a, x, b, by rw [hps]; rfl, hx, hd, by simp [hi], by simp [hq]⟩
      | false =>
        by_cases h3 : p.now_else > d
        · rw [check_locked_loop_throw d ld p ps h1 h2 h3]
          exact ⟨[], p, ps, rfl, h2, h3, rfl, rfl⟩
        · rw [check_locked_loop_unlocked d ld p ps h1 h2 h3] at h ⊢
          obtain ⟨a, x, b, hps, hx, hd, hi, hq⟩ := ih ld h
          exact ⟨p :: a, x, b, by rw [hps]; rfl, hx, hd, by simp [hi], by simp [hq]⟩

theorem check_locked_loop_after_deadline (d : Nat) (ld : Bool) (p q : Poll) (rest : List Poll)
    (hp : d < p.now_head) (h1 : p.now_head ≤ p.now_else) (h2 : p.now_else ≤ q.now_head) :
    check_locked_loop d ld (p :: q :: rest) =
      if ld then { outcome := SensorOutcome.returned true, iterations := 1, queries := 0 }
      else if p.locked then
        { outcome := SensorOutcome.returned true, iterations := 2, queries := 1 }
      else { outcome := SensorOutcome.threw, iterations := 1, queries := 1 } := by
  have hq : d < q.now_head := by omega
  have he : d < p.now_else := by omega
  cases ld <;> cases hl : p.locked <;> simp [check_locked_loop, hp, hq, he, hl]

theorem check_locked_sensor_mem (names : List String) (name : String) (now0 setup : Nat)
    (polls : List Poll) (hin : name ∈ names) :
    check_locked_sensor names name now0 setup polls
      = check_locked_loop (now0 + setup) false polls := by
  simp [check_locked_sensor, hin]

theorem check_locked_loop_finishes (d : Nat) (pre : List Poll) (p q : Poll) (rest : List Poll)
    (hp : d < p.now_head) (h1 : p.now_head ≤ p.now_else) (h2 : p.now_else ≤ q.now_head) :
    (check_locked_loop d false (pre ++ p :: q :: rest)).outcome = SensorOutcome.returned true ∨
    (check_locked_loop d false (pre ++ p :: q :: rest)).outcome = SensorOutcome.threw := by
  by_cases hrun : (check_locked_loop d false pre).outcome = SensorOutcome.running
  · rw [check_locked_loop_append d pre _ false hrun,
      check_locked_loop_after_deadline d _ p q rest hp h1 h2]
    cases (false || pre.any fun p => p.locked) <;> cases p.locked <;> simp
  · rw [check_locked_loop_append_done d pre _ false hrun]
    have hnf := check_locked_loop_not_false d pre false
    cases ho : (check_locked_loop d false pre).outcome with
    | returned v =>
      cases v with
      | true => exact Or.inl rfl
      | false => exact absurd ho hnf
    | threw => exact Or.inr rfl
    | running => exact absurd ho hrun

/-- C15: for a sensor in the list and a clock that never runs backwards, when the loop of
`check_locked_sensor` is still running at the start of a pass that begins after the setup
deadline, the function finishes within that pass and the next: it returns true in that very
pass if a locked reading was seen before, returns true in the next pass if the reading of that
pass is locked, and throws in that pass otherwise. And whenever the function throws, whatever
the clock and the readings, the last reading was unlocked and the clock read in the `else`
branch right after it was past the deadline. -/
theorem check_locked_sensor_after_deadline (names : List String) (name : String)
    (now0 setup : Nat) (pre : List Poll) (p q : Poll) (rest polls : List Poll)
    (hin : name ∈ names)
    (hmono : clockMonotone now0 (pre ++ p :: q :: rest) = true)
    (hrun : (check_locked_sensor names name now0 setup pre).outcome = SensorOutcome.running)
    (hp : now0 + setup < p.now_head) :
    ((pre.any fun x => x.locked) = true →
      (check_locked_sensor names name now0 setup (pre ++ p :: q :: rest)).outcome
        = SensorOutcome.returned true ∧
      (check_locked_sensor names name now0 setup (pre ++ p :: q :: rest)).iterations
        = pre.length + 1) ∧
    ((pre.any fun x => x.locked) = false → p.locked = true →
      (check_locked_sensor names name now0 setup (pre ++ p :: q :: rest)).outcome
        = SensorOutcome.returned true ∧
      (check_locked_sensor names name now0 setup (pre ++ p :: q :: rest)).iterations
        = pre.length + 2) ∧
    ((pre.any fun x => x.locked) = false → p.locked = false →
      (check_locked_sensor names name now0 setup (pre ++ p :: q :: rest)).outcome
        = SensorOutcome.threw ∧
      (check_locked_sensor names name now0 setup (pre ++ p :: q :: rest)).iterations
        = pre.length + 1) ∧
    (check_locked_sensor names name now0 setup (pre ++ p :: q :: rest)).iterations
      ≤ pre.length + 2 ∧
    ((check_locked_sensor names name now0 setup polls).outcome = SensorOutcome.threw →
      ∃ a x b, polls = a ++ x :: b ∧ x.locked = false ∧ now0 + setup < x.now_else ∧
        (check_locked_sensor names name now0 setup polls).iterations = a.length + 1) := by
  obtain ⟨h1, h2⟩ := clockMonotone_mid now0 pre p q rest hmono
  rw [check_locked_sensor_mem names name now0 setup _ hin] at hrun
  rw [check_locked_sensor_mem names name now0 setup _ hin,
    check_locked_sensor_mem names name now0 setup _ hin,
    check_locked_loop_append (now0 + setup) pre _ false hrun,
    check_locked_loop_after_deadline (now0 + setup) _ p q rest hp h1 h2]
  refine ⟨?_, ?_, ?_, ?_, ?_⟩
  · intro ha
    simp [ha, Nat.add_comm]
  · intro ha hl
    simp [ha, hl, Nat.add_comm]
  · intro ha hl
    simp [ha, hl, Nat.add_comm]
  · cases (false || pre.any fun p => p.locked) <;> cases p.locked <;> simp <;> omega
  · intro ht
    obtain ⟨a, x, b, hps, hx, hd, hi, -⟩ := check_locked_loop_threw (now0 + setup) polls false ht
    exact ⟨a, x, b, hps, hx, hd, hi⟩

/-- Witness for C15: deadline at tick 10; one unlocked reading at tick 1, then a pass that
starts at tick 11 and reads locked, then a pass at tick 13. -/
theorem check_locked_sensor_after_deadline_witness :
    (check_locked_sensor ["lo_locked"] "lo_locked" 0 10
      ([⟨1, false, 1⟩] ++ ⟨11, true, 12⟩ :: ⟨13, false, 13⟩ :: [])).outcome
        = SensorOutcome.returned true ∧
    (check_locked_sensor ["lo_locked"] "lo_locked" 0 10
      ([⟨1, false, 1⟩] ++ ⟨11, true, 12⟩ :: ⟨13, false, 13⟩ :: [])).iterations
        = [(⟨1, false, 1⟩ : Poll)].length + 2 :=
  (check_locked_sensor_after_deadline ["lo_locked"] "lo_locked" 0 10 [⟨1, false, 1⟩]
    ⟨11, true, 12⟩ ⟨13, false, 13⟩ [] [] (by decide) (by decide) (by decide)
    (by decide)).2.1 (by decide) rfl

/-- C16: for a sensor name that is not in the list, `check_locked_sensor` returns false
without starting the loop and without a single call of the sensor function; for a name in the
list it never returns false: it returns true, throws, or is still in its loop, and with a
clock that never runs backwards it has returned true or thrown by the pass after the first
one that starts after the deadline. -/
theorem check_locked_sensor_name_lookup (names : List String) (name : String)
    (now0 setup : Nat) (polls pre : List Poll) (p q : Poll) (rest : List Poll) :
    (name ∉ names →
      check_locked_sensor names name now0 setup polls
        = { outcome := SensorOutcome.returned false, iterations := 0, queries := 0 }) ∧
    (name ∈ names →
      (check_locked_sensor names name now0 setup polls).outcome
        ≠ SensorOutcome.returned false) ∧
    (name ∈ names → clockMonotone now0 (pre ++ p :: q :: rest) = true →
      now0 + setup < p.now_head →
      (check_locked_sensor names name now0 setup (pre ++ p :: q :: rest)).outcome
          = SensorOutcome.returned true ∨
      (check_locked_sensor names name now0 setup (pre ++ p :: q :: rest)).outcome
          = SensorOutcome.threw) := by
  refine ⟨?_, ?_, ?_⟩
  · intro hn
    simp [check_locked_sensor, hn]
  · intro hin
    rw [check_locked_sensor_mem names name now0 setup _ hin]
    exact check_locked_loop_not_false _ _ _
  · intro hin hmono hp
    obtain ⟨h1, h2⟩ := clockMonotone_mid now0 pre p q rest hmono
    rw [check_locked_sensor_mem names name now0 setup _ hin]
    exact check_locked_loop_finishes _ pre p q rest hp h1 h2

/-- Witness for C16: `"gps_locked"` is not among the sensor names, `"lo_locked"` is. -/
theorem check_locked_sensor_name_lookup_witness :
    check_locked_sensor ["ref_locked", "lo_locked"] "gps_locked" 0 10 flickerPolls
      = { outcome := SensorOutcome.returned false, iterations := 0, queries := 0 } ∧
    (check_locked_sensor ["ref_locked", "lo_locked"] "lo_locked" 0 10 flickerPolls).outcome
      ≠ SensorOutcome.returned false :=
  ⟨(check_locked_sensor_name_lookup ["ref_locked", "lo_locked"] "gps_locked" 0 10 flickerPolls
      [] ⟨0, false, 0⟩ ⟨0, false, 0⟩ []).1 (by decide),
   (check_locked_sensor_name_lookup ["ref_locked", "lo_locked"] "lo_locked" 0 10 flickerPolls
      [] ⟨0, false, 0⟩ ⟨0, false, 0⟩ []).2.1 (by decide)⟩

theorem usrpRun_loop_head (env : Env) (its : List Iteration) (st : RunState) :
    (usrpRun_loop env st its).trace = [] ∨
    ∃ v t, (usrpRun_loop env st its).trace = RunEvent.exitTest v :: t := by
  cases its with
  | nil => exact Or.inl rfl
  | cons it rest =>
    refine Or.inr ?_
    cases hx : it.exit with
    | true => rw [usrpRun_loop_exit env st it rest hx]; exact ⟨_, _, rfl⟩
    | false =>
      cases hec : it.error_code with
      | ERROR_CODE_NONE => rw [usrpRun_loop_none env st it rest hx hec]; exact ⟨_, _, rfl⟩
      | ERROR_CODE_TIMEOUT =>
        by_cases hacc : st.num_acc_samps = 0
        · rw [usrpRun_loop_timeout_retry env st it rest hx hec hacc]; exact ⟨_, _, rfl⟩
        · rw [usrpRun_loop_timeout_stop env st it rest hx hec hacc]; exact ⟨_, _, rfl⟩
      | OTHER code => rw [usrpRun_loop_other env st it rest hx code hec]; exact ⟨_, _, rfl⟩

theorem usrpRun_loop_split_errors (env : Env) (its : List Iteration) (st : RunState)
    (pre post : List RunEvent) (x : RunEvent)
    (h : (usrpRun_loop env st its).trace = pre ++ x :: post) :
    (∀ rb n, x = RunEvent.callback rb n →
      ∃ pre1 buff, pre = pre1 ++ [RunEvent.recv buff n ErrorCode.ERROR_CODE_NONE]) ∧
    (∀ buff n, x = RunEvent.recv buff n ErrorCode.ERROR_CODE_TIMEOUT →
      post = [] ∨ ∃ v post1, post = RunEvent.exitTest v :: post1) ∧
    (∀ buff n code, x = RunEvent.recv buff n (ErrorCode.OTHER code) →
      post = [] ∧ (usrpRun_loop env st its).finished = true) := by
  induction its generalizing st pre post with
  | nil =>
    simp only [usrpRun_loop] at h
    exact absurd h (by simp)
  | cons it rest ih =>
    cases hx : it.exit with
    | true =>
      rw [usrpRun_loop_exit env st it rest hx] at h ⊢
      simp only at h ⊢
      rcases cons_eq_append_cons _ _ _ _ _ h with ⟨rfl, rfl, rfl⟩ | ⟨pre1, rfl, h1⟩
      · simp
      · exact absurd h1 (by simp)
    | false =>
      cases hec : it.error_code with
      | ERROR_CODE_NONE =>
        rw [usrpRun_loop_none env st it rest hx hec] at h ⊢
        simp only [List.cons_append, List.nil_append] at h ⊢
        rcases cons_eq_append_cons _ _ _ _ _ h with ⟨rfl, rfl, rfl⟩ | ⟨pre1, rfl, h1⟩
        · simp
        rcases cons_eq_append_cons _ _ _ _ _ h1 with ⟨rfl, rfl, rfl⟩ | ⟨pre2, rfl, h2⟩
        · simp
        rcases cons_eq_append_cons _ _ _ _ _ h2 with ⟨rfl, rfl, rfl⟩ | ⟨pre3, rfl, h3⟩
        · refine ⟨?_, by simp, by simp⟩
          intro rb n hb
          simp only [RunEvent.callback.injEq] at hb
          obtain ⟨-, rfl⟩ := hb
          exact ⟨[RunEvent.exitTest false], it.buff, rfl⟩
        obtain ⟨hA, hB, hC⟩ := ih _ _ _ h3
        refine ⟨?_, hB, hC⟩
        intro rb n hb
        obtain ⟨q, buff, rfl⟩ := hA rb n hb
        exact ⟨_ :: _ :: _ :: q, buff, rfl⟩
      | ERROR_CODE_TIMEOUT =>
        by_cases hacc : st.num_acc_samps = 0
        · rw [usrpRun_loop_timeout_retry env st it rest hx hec hacc] at h ⊢
          simp only [List.cons_append, List.nil_append] at h ⊢
          rcases cons_eq_append_cons _ _ _ _ _ h with ⟨rfl, rfl, rfl⟩ | ⟨pre1, rfl, h1⟩
          · simp
          rcases cons_eq_append_cons _ _ _ _ _ h1 with ⟨rfl, rfl, rfl⟩ | ⟨pre2, rfl, h2⟩
          · refine ⟨by simp, ?_, by simp⟩
            intro _ _ _
            rcases usrpRun_loop_head env rest st with h0 | ⟨v, t, h0⟩
            · exact Or.inl h0
            · exact Or.inr ⟨v, t, h0⟩
          obtain ⟨hA, hB, hC⟩ := ih _ _ _ h2
          refine ⟨?_, hB, hC⟩
          intro rb n hb
          obtain ⟨q, buff, rfl⟩ := hA rb n hb
          exact ⟨_ :: _ :: q, buff, rfl⟩
        · rw [usrpRun_loop_timeout_stop env st it rest hx hec hacc] at h ⊢
          simp only at h ⊢
          rcases cons_eq_append_cons _ _ _ _ _ h with ⟨rfl, rfl, rfl⟩ | ⟨pre1, rfl, h1⟩
          · simp
          rcases cons_eq_append_cons _ _ _ _ _ h1 with ⟨rfl, rfl, rfl⟩ | ⟨pre2, rfl, h2⟩
          · simp
          · exact absurd h2 (by simp)
      | OTHER code =>
        rw [usrpRun_loop_other env st it rest hx code hec] at h ⊢
        simp only at h ⊢
        rcases cons_eq_append_cons _ _ _ _ _ h with ⟨rfl, rfl, rfl⟩ | ⟨pre1, rfl, h1⟩
        · simp
        rcases cons_eq_append_cons _ _ _ _ _ h1 with ⟨rfl, rfl, rfl⟩ | ⟨pre2, rfl, h2⟩
        · simp
        · exact absurd h2 (by simp)

theorem usrpRun_loop_good_prefix (env : Env) (good : List Iteration) (st : RunState)
    (hg : ∀ it ∈ good, it.exit = false ∧ it.error_code = ErrorCode.ERROR_CODE_NONE)
    (hacc : st.num_acc_samps < 4294967296) :
    ∃ st1 tr,
      st1.num_acc_samps = (st.num_acc_samps + receivedSamples good) % 4294967296 ∧
      RunEvent.streamStop ∉ tr ∧
      ∀ rest, (usrpRun_loop env st (good ++ rest)).trace
                = tr ++ (usrpRun_loop env st1 rest).trace ∧
              (usrpRun_loop env st (good ++ rest)).finished
                = (usrpRun_loop env st1 rest).finished := by
  induction good generalizing st with
  | nil =>
    refine ⟨st, [], ?_, by simp, fun rest => ⟨rfl, rfl⟩⟩
    simp only [receivedSamples, List.map_nil, List.sum_nil, Nat.add_zero]
    exact (Nat.mod_eq_of_lt hacc).symm
  | cons it good ih =>
    obtain ⟨hx, hec⟩ := hg it (List.mem_cons_self it good)
    obtain ⟨st1, tr, h1, h2, h3⟩ := ih
      { num_acc_samps := (st.num_acc_samps + it.num_rx_samps) % 4294967296,
        readbuf := fillReadbuf st.readbuf it.buff it.num_rx_samps,
        cb := (usrpCallback env st.cb (fillReadbuf st.readbuf it.buff it.num_rx_samps)
                it.num_rx_samps it.world).1 }
      (fun i hi => hg i (List.mem_cons_of_mem it hi)) (Nat.mod_lt _ (by decide))
    refine ⟨st1, [RunEvent.exitTest false,
        RunEvent.recv it.buff it.num_rx_samps ErrorCode.ERROR_CODE_NONE,
        RunEvent.callback (fillReadbuf st.readbuf it.buff it.num_rx_samps) it.num_rx_samps]
        ++ tr, ?_, ?_, ?_⟩
    · rw [h1]
      simp only [receivedSamples, List.map_cons, List.sum_cons, Nat.mod_add_mod]
      congr 1
      omega
    · intro hmem
      rcases List.mem_append.mp hmem with h | h
      · simp at h
      · exact h2 h
    · intro rest
      rw [List.cons_append, usrpRun_loop_none env st it (good ++ rest) hx hec]
      simp only [List.append_assoc]
      exact ⟨by rw [(h3 rest).1], (h3 rest).2⟩

theorem receivedSamples_replicate (n : Nat) (it : Iteration) :
    receivedSamples (List.replicate n it) = n * it.num_rx_samps := by
  induction n with
  | zero => simp [receivedSamples]
  | succ n ih =>
    simp only [receivedSamples, List.replicate, List.map_cons, List.sum_cons] at ih ⊢
    rw [ih]
    ring

theorem usrpRun_finished_eq (env : Env) (readbuf : List Int) (cb : CallbackState)
    (its : List Iteration) :
    (usrpRun env readbuf cb its).finished =
      (usrpRun_loop env { num_acc_samps := 0, readbuf := readbuf, cb := cb } its).finished :=
  rfl

theorem usrpRun_loop_running_prefix (env : Env) (pre : List Iteration) (st : RunState)
    (hrun : (usrpRun_loop env st pre).finished = false)
    (hacc : st.num_acc_samps < 4294967296) :
    ∃ st1 : RunState,
      st1.num_acc_samps = (st.num_acc_samps + okSamples pre) % 4294967296 ∧
      ∀ rest, (usrpRun_loop env st (pre ++ rest)).trace
                = (usrpRun_loop env st pre).trace ++ (usrpRun_loop env st1 rest).trace ∧
              (usrpRun_loop env st (pre ++ rest)).finished
                = (usrpRun_loop env st1 rest).finished := by
  induction pre generalizing st with
  | nil =>
    refine ⟨st, ?_, fun rest => ⟨rfl, rfl⟩⟩
    simp only [okSamples, List.map_nil, List.sum_nil, Nat.add_zero]
    exact (Nat.mod_eq_of_lt hacc).symm
  | cons it pre ih =>
    cases hx : it.exit with
    | true =>
      rw [usrpRun_loop_exit env st it pre hx] at hrun
      exact absurd hrun (by simp)
    | false =>
      cases hec : it.error_code with
      | ERROR_CODE_NONE =>
        rw [usrpRun_loop_none env st it pre hx hec] at hrun
        obtain ⟨st1, h1, h3⟩ := ih _ hrun (Nat.mod_lt _ (by decide))
        refine ⟨st1, ?_, ?_⟩
        · rw [h1]
          simp only [okSamples, List.map_cons, List.sum_cons, hec, if_true, Nat.mod_add_mod]
          congr 1
          omega
        · intro rest
          rw [List.cons_append, usrpRun_loop_none env st it (pre ++ rest) hx hec,
            usrpRun_loop_none env st it pre hx hec]
          simp only [List.append_assoc]
          exact ⟨by rw [(h3 rest).1], (h3 rest).2⟩
      | ERROR_CODE_TIMEOUT =>
        by_cases h0 : st.num_acc_samps = 0
        · rw [usrpRun_loop_timeout_retry env st it pre hx hec h0] at hrun
          obtain ⟨st1, h1, h3⟩ := ih st hrun hacc
          refine ⟨st1, ?_, ?_⟩
          · rw [h1]
            simp [okSamples, hec]
          · intro rest
            rw [List.cons_append, usrpRun_loop_timeout_retry env st it (pre ++ rest) hx hec h0,
              usrpRun_loop_timeout_retry env st it pre hx hec h0]
            simp only [List.append_assoc]
            exact ⟨by rw [(h3 rest).1], (h3 rest).2⟩
        · rw [usrpRun_loop_timeout_stop env st it pre hx hec h0] at hrun
          exact absurd hrun (by simp)
      | OTHER code =>
        rw [usrpRun_loop_other env st it pre hx code hec] at hrun
        exact absurd hrun (by simp)

theorem usrpRun_timeout_by_total (env : Env) (readbuf : List Int) (cb : CallbackState)
    (pre : List Iteration) (it : Iteration) (rest : List Iteration)
    (hrun : (usrpRun env readbuf cb pre).finished = false)
    (hx : it.exit = false) (hec : it.error_code = ErrorCode.ERROR_CODE_TIMEOUT) :
    (okSamples pre % 4294967296 ≠ 0 →
      (usrpRun env readbuf cb (pre ++ it :: rest)).finished = true ∧
      (usrpRun env readbuf cb (pre ++ it :: rest)).trace =
        (usrpRun env readbuf cb pre).trace ++
          [RunEvent.exitTest false,
           RunEvent.recv it.buff it.num_rx_samps ErrorCode.ERROR_CODE_TIMEOUT,
           RunEvent.streamStop]) ∧
    (okSamples pre = 0 →
      (usrpRun env readbuf cb (pre ++ [it])).finished = false ∧
      (usrpRun env readbuf cb (pre ++ [it])).trace =
        (usrpRun env readbuf cb pre).trace ++
          [RunEvent.exitTest false,
           RunEvent.recv it.buff it.num_rx_samps ErrorCode.ERROR_CODE_TIMEOUT]) := by
  rw [usrpRun_finished_eq] at hrun
  obtain ⟨st1, h1, h3⟩ := usrpRun_loop_running_prefix env pre
    { num_acc_samps := 0, readbuf := readbuf, cb := cb } hrun
    (show (0 : Nat) < 4294967296 by decide)
  simp only [Nat.zero_add] at h1
  have hpre : (usrpRun env readbuf cb pre).trace =
      RunEvent.streamStart ::
        (usrpRun_loop env { num_acc_samps := 0, readbuf := readbuf, cb := cb } pre).trace := by
    rw [usrpRun_trace_eq, usrpRun_finished_eq, hrun]
    simp
  refine ⟨?_, ?_⟩
  · intro hne
    have hacc : st1.num_acc_samps ≠ 0 := by rw [h1]; exact hne
    have hf : (usrpRun env readbuf cb (pre ++ it :: rest)).finished = true := by
      rw [usrpRun_finished_eq, (h3 (it :: rest)).2,
        usrpRun_loop_timeout_stop env st1 it rest hx hec hacc]
    refine ⟨hf, ?_⟩
    rw [usrpRun_trace_eq, if_pos hf, (h3 (it :: rest)).1,
      usrpRun_loop_timeout_stop env st1 it rest hx hec hacc, hpre]
    simp
  · intro h0
    have hacc : st1.num_acc_samps = 0 := by rw [h1, h0]
    have hf : (usrpRun env readbuf cb (pre ++ [it])).finished = false := by
      rw [usrpRun_finished_eq, (h3 [it]).2,
        usrpRun_loop_timeout_retry env st1 it [] hx hec hacc]
      rfl
    refine ⟨hf, ?_⟩
    rw [usrpRun_trace_eq, hf, (h3 [it]).1,
      usrpRun_loop_timeout_retry env st1 it [] hx hec hacc, hpre]
    simp [usrpRun_loop]

/-- C14 (as amended): in every run of `usrpRun`, `usrpCallback` is called for a received
block if and only if the receive reported `ERROR_CODE_NONE`: (1) every receive without error is
immediately followed by the callback on that block with `len = num_rx_samps`; (2) every
callback is immediately preceded by a receive without error of that many samples; (3) a receive
that timed out is followed by the next test of the exit flag, by the stop command, or by
nothing, never by a callback; (4) a receive with any other error is followed by the stop
command alone. In one pass of the loop from any state, with the exit flag clear: (5) a timeout
while the 32-bit counter `num_acc_samps` is 0 leaves the state as it is and goes on with the
next pass; (6) a timeout while `num_acc_samps` is not 0 leaves the loop; (7) any other error
leaves the loop; (8) a receive without error adds `num_rx_samps` to `num_acc_samps` modulo
2^32; (9) the loop is entered with `num_acc_samps = 0`. Hence, (10), at a pass reached with the
loop still running and the exit flag clear, a timeout after samples were accumulated, their
number not a multiple of 2^32, ends the run with the stop command, and a timeout while no
samples have been accumulated is retried. -/
theorem usrpRun_callback_iff_no_error (env : Env) (readbuf : List Int) (cb : CallbackState)
    (its : List Iteration) (st : RunState) (it : Iteration) (rest : List Iteration) :
    (∀ pre post buff n,
      (usrpRun env readbuf cb its).trace
        = pre ++ RunEvent.recv buff n ErrorCode.ERROR_CODE_NONE :: post →
      ∃ old post1, post = RunEvent.callback (fillReadbuf old buff n) n :: post1) ∧
    (∀ pre post rb n,
      (usrpRun env readbuf cb its).trace = pre ++ RunEvent.callback rb n :: post →
      ∃ pre1 buff, pre = pre1 ++ [RunEvent.recv buff n ErrorCode.ERROR_CODE_NONE]) ∧
    (∀ pre post buff n,
      (usrpRun env readbuf cb its).trace
        = pre ++ RunEvent.recv buff n ErrorCode.ERROR_CODE_TIMEOUT :: post →
      post = [] ∨ post = [RunEvent.streamStop] ∨
        ∃ v post1, post = RunEvent.exitTest v :: post1) ∧
    (∀ pre post buff n code,
      (usrpRun env readbuf cb its).trace
        = pre ++ RunEvent.recv buff n (ErrorCode.OTHER code) :: post →
      post = [RunEvent.streamStop]) ∧
    (it.exit = false → it.error_code = ErrorCode.ERROR_CODE_TIMEOUT → st.num_acc_samps = 0 →
      usrpRun_loop env st (it :: rest) =
        { state := (usrpRun_loop env st rest).state
          trace := [RunEvent.exitTest false,
                    RunEvent.recv it.buff it.num_rx_samps ErrorCode.ERROR_CODE_TIMEOUT]
            ++ (usrpRun_loop env st rest).trace
          fifo := (usrpRun_loop env st rest).fifo
          finished := (usrpRun_loop env st rest).finished }) ∧
    (it.exit = false → it.error_code = ErrorCode.ERROR_CODE_TIMEOUT → st.num_acc_samps ≠ 0 →
      usrpRun_loop env st (it :: rest) =
        { state := st
          trace := [RunEvent.exitTest false,
                    RunEvent.recv it.buff it.num_rx_samps ErrorCode.ERROR_CODE_TIMEOUT]
          fifo := []
          finished := true }) ∧
    (∀ code, it.exit = false → it.error_code = ErrorCode.OTHER code →
      usrpRun_loop env st (it :: rest) =
        { state := st
          trace := [RunEvent.exitTest false,
                    RunEvent.recv it.buff it.num_rx_samps (ErrorCode.OTHER code)]
          fifo := []
          finished := true }) ∧
    (it.exit = false → it.error_code = ErrorCode.ERROR_CODE_NONE →
      ∃ st1 : RunState,
        st1.num_acc_samps = (st.num_acc_samps + it.num_rx_samps) % 4294967296 ∧
        st1.readbuf = fillReadbuf st.readbuf it.buff it.num_rx_samps ∧
        st1.cb = (usrpCallback env st.cb st1.readbuf it.num_rx_samps it.world).1 ∧
        (usrpRun_loop env st (it :: rest)).trace =
          [RunEvent.exitTest false,
           RunEvent.recv it.buff it.num_rx_samps ErrorCode.ERROR_CODE_NONE,
           RunEvent.callback st1.readbuf it.num_rx_samps] ++ (usrpRun_loop env st1 rest).trace ∧
        (usrpRun_loop env st (it :: rest)).fifo =
          (usrpCallback env st.cb st1.readbuf it.num_rx_samps it.world).2
            ++ (usrpRun_loop env st1 rest).fifo ∧
        (usrpRun_loop env st (it :: rest)).finished = (usrpRun_loop env st1 rest).finished) ∧
    (usrpRun env readbuf cb its).trace =
      RunEvent.streamStart ::
        ((usrpRun_loop env { num_acc_samps := 0, readbuf := readbuf, cb := cb } its).trace
          ++ (if (usrpRun env readbuf cb its).finished = true then [RunEvent.streamStop]
              else [])) ∧
    (∀ pre : List Iteration, (usrpRun env readbuf cb pre).finished = false →
      it.exit = false → it.error_code = ErrorCode.ERROR_CODE_TIMEOUT →
      (okSamples pre % 4294967296 ≠ 0 →
        (usrpRun env readbuf cb (pre ++ it :: rest)).finished = true ∧
        (usrpRun env readbuf cb (pre ++ it :: rest)).trace =
          (usrpRun env readbuf cb pre).trace ++
            [RunEvent.exitTest false,
             RunEvent.recv it.buff it.num_rx_samps ErrorCode.ERROR_CODE_TIMEOUT,
             RunEvent.streamStop]) ∧
      (okSamples pre = 0 →
        (usrpRun env readbuf cb (pre ++ [it])).finished = false ∧
        (usrpRun env readbuf cb (pre ++ [it])).trace =
          (usrpRun env readbuf cb pre).trace ++
            [RunEvent.exitTest false,
             RunEvent.recv it.buff it.num_rx_samps ErrorCode.ERROR_CODE_TIMEOUT])) := by
  have hfin : (usrpRun env readbuf cb its).finished
      = (usrpRun_loop env { num_acc_samps := 0, readbuf := readbuf, cb := cb } its).finished :=
    rfl
  have htail : ∀ x : RunEvent, x ≠ RunEvent.streamStop →
      x ∉ (if (usrpRun env readbuf cb its).finished = true then [RunEvent.streamStop]
            else []) := by
    intro x hx hmem
    by_cases hf : (usrpRun env readbuf cb its).finished = true
    · rw [if_pos hf] at hmem
      exact hx (List.mem_singleton.mp hmem)
    · rw [if_neg hf] at hmem
      simp at hmem
  refine ⟨?_, ?_, ?_, ?_, ?_, ?_, ?_, ?_, usrpRun_trace_eq env readbuf cb its,
    fun pre hrun hx hec => usrpRun_timeout_by_total env readbuf cb pre it rest hrun hx hec⟩
  · intro pre post buff n h
    rw [usrpRun_trace_eq] at h
    obtain ⟨pre1, post1, hT, -, rfl⟩ :=
      split_mid _ _ _ _ _ _ (by simp) (htail _ (by simp)) h
    obtain ⟨old, q, rfl⟩ := (usrpRun_loop_split env its _ pre1 post1 _ hT).2.2.1 buff n rfl
    exact ⟨old, _, rfl⟩
  · intro pre post rb n h
    rw [usrpRun_trace_eq] at h
    obtain ⟨pre1, post1, hT, rfl, -⟩ :=
      split_mid _ _ _ _ _ _ (by simp) (htail _ (by simp)) h
    obtain ⟨q, buff, rfl⟩ := (usrpRun_loop_split_errors env its _ pre1 post1 _ hT).1 rb n rfl
    exact ⟨RunEvent.streamStart :: q, buff, rfl⟩
  · intro pre post buff n h
    rw [usrpRun_trace_eq] at h
    obtain ⟨pre1, post1, hT, -, rfl⟩ :=
      split_mid _ _ _ _ _ _ (by simp) (htail _ (by simp)) h
    rcases (usrpRun_loop_split_errors env its _ pre1 post1 _ hT).2.1 buff n rfl with
      rfl | ⟨v, q, rfl⟩
    · by_cases hf : (usrpRun env readbuf cb its).finished = true
      · rw [if_pos hf]; exact Or.inr (Or.inl rfl)
      · rw [if_neg hf]; exact Or.inl rfl
    · exact Or.inr (Or.inr ⟨v, _, rfl⟩)
  · intro pre post buff n code h
    rw [usrpRun_trace_eq] at h
    obtain ⟨pre1, post1, hT, -, rfl⟩ :=
      split_mid _ _ _ _ _ _ (by simp) (htail _ (by simp)) h
    obtain ⟨rfl, hf⟩ := (usrpRun_loop_split_errors env its _ pre1 post1 _ hT).2.2 buff n code rfl
    rw [hfin, if_pos hf]
    rfl
  · intro hx hec hacc
    exact usrpRun_loop_timeout_retry env st it rest hx hec hacc
  · intro hx hec hacc
    exact usrpRun_loop_timeout_stop env st it rest hx hec hacc
  · intro code hx hec
    exact usrpRun_loop_other env st it rest hx code hec
  · intro hx hec
    rw [usrpRun_loop_none env st it rest hx hec]
    exact ⟨{ num_acc_samps := (st.num_acc_samps + it.num_rx_samps) % 4294967296,
             readbuf := fillReadbuf st.readbuf it.buff it.num_rx_samps,
             cb := (usrpCallback env st.cb (fillReadbuf st.readbuf it.buff it.num_rx_samps)
                     it.num_rx_samps it.world).1 }, rfl, rfl, rfl, rfl, rfl, rfl⟩

/-- Witness for C14: a timeout before any sample (retried), a good pass, then a timeout that
ends the loop. -/
theorem usrpRun_callback_iff_no_error_witness :
    (usrpRun env0 [] initState [timeoutIteration, goodIteration, timeoutIteration]).trace =
      [RunEvent.streamStart,
       RunEvent.exitTest false, RunEvent.recv [] 0 ErrorCode.ERROR_CODE_TIMEOUT,
       RunEvent.exitTest false, RunEvent.recv [(3, -4), (5, 6)] 2 ErrorCode.ERROR_CODE_NONE,
       RunEvent.callback [3, -4, 5, 6] 2,
       RunEvent.exitTest false, RunEvent.recv [] 0 ErrorCode.ERROR_CODE_TIMEOUT,
       RunEvent.streamStop] ∧
    usrpRun_loop env0 { num_acc_samps := 2, readbuf := [], cb := initState }
        (timeoutIteration :: [goodIteration]) =
      { state := { num_acc_samps := 2, readbuf := [], cb := initState }
        trace := [RunEvent.exitTest false,
                  RunEvent.recv timeoutIteration.buff timeoutIteration.num_rx_samps
                    ErrorCode.ERROR_CODE_TIMEOUT]
        fifo := []
        finished := true } :=
  ⟨by decide,
   (usrpRun_callback_iff_no_error env0 [] initState []
      { num_acc_samps := 2, readbuf := [], cb := initState } timeoutIteration
      [goodIteration]).2.2.2.2.2.1 rfl rfl (by decide)⟩

/-- C14 (counterexample to the claim as stated): `usrpRun` receives 32768 full buffers of
131072 samples without error, 2^32 samples in all, so the 32-bit `num_acc_samps` is 0 again;
the two timeouts that follow are both retried: after each the loop goes back to its test, the
stop command is never issued, and the loop is still running when the passes are over. -/
theorem usrpRun_timeout_retried_after_wrap :
    (∀ it ∈ List.replicate 32768 fullBufferIteration,
      it.exit = false ∧ it.error_code = ErrorCode.ERROR_CODE_NONE) ∧
    receivedSamples (List.replicate 32768 fullBufferIteration) = 4294967296 ∧
    timeoutIteration.exit = false ∧
    timeoutIteration.error_code = ErrorCode.ERROR_CODE_TIMEOUT ∧
    (usrpRun env0 [] initState wrapIterations).finished = false ∧
    List.IsSuffix
      [RunEvent.exitTest false, RunEvent.recv [] 0 ErrorCode.ERROR_CODE_TIMEOUT,
       RunEvent.exitTest false, RunEvent.recv [] 0 ErrorCode.ERROR_CODE_TIMEOUT]
      (usrpRun env0 [] initState wrapIterations).trace ∧
    RunEvent.streamStop ∉ (usrpRun env0 [] initState wrapIterations).trace := by
  have hg : ∀ it ∈ List.replicate 32768 fullBufferIteration,
      it.exit = false ∧ it.error_code = ErrorCode.ERROR_CODE_NONE := by
    intro it hit
    rw [List.eq_of_mem_replicate hit]
    exact ⟨rfl, rfl⟩
  have hrecv : receivedSamples (List.replicate 32768 fullBufferIteration) = 4294967296 := by
    rw [receivedSamples_replicate]
    decide
  obtain ⟨st1, tr, h1, h2, h3⟩ := usrpRun_loop_good_prefix env0
    (List.replicate 32768 fullBufferIteration)
    { num_acc_samps := 0, readbuf := [], cb := initState } hg (by decide)
  rw [hrecv] at h1
  have hacc : st1.num_acc_samps = 0 := by simpa using h1
  obtain ⟨ht, hf⟩ := h3 [timeoutIteration, timeoutIteration]
  have hloop : usrpRun_loop env0 st1 [timeoutIteration, timeoutIteration] =
      { state := st1
        trace := [RunEvent.exitTest false, RunEvent.recv [] 0 ErrorCode.ERROR_CODE_TIMEOUT,
                  RunEvent.exitTest false, RunEvent.recv [] 0 ErrorCode.ERROR_CODE_TIMEOUT]
        fifo := []
        finished := false } := by
    rw [usrpRun_loop_timeout_retry env0 st1 timeoutIteration [timeoutIteration] rfl rfl hacc,
      usrpRun_loop_timeout_retry env0 st1 timeoutIteration [] rfl rfl hacc]
    rfl
  rw [hloop] at ht hf
  have hfin : (usrpRun env0 [] initState wrapIterations).finished = false := by
    rw [usrpRun_finished_eq]
    unfold wrapIterations
    exact hf
  have htrace : (usrpRun env0 [] initState wrapIterations).trace =
      (RunEvent.streamStart :: tr) ++
        [RunEvent.exitTest false, RunEvent.recv [] 0 ErrorCode.ERROR_CODE_TIMEOUT,
         RunEvent.exitTest false, RunEvent.recv [] 0 ErrorCode.ERROR_CODE_TIMEOUT] := by
    rw [usrpRun_trace_eq, hfin]
    unfold wrapIterations
    rw [ht]
    simp
  refine ⟨hg, hrecv, rfl, rfl, hfin, ⟨_, htrace.symm⟩, ?_⟩
  rw [htrace]
  intro hmem
  rcases List.mem_append.mp hmem with h | h
  · rcases List.mem_cons.mp h with h | h
    · exact absurd h (by simp)
    · exact h2 h
  · simp at h

/-- C9 (the code at the failing input): `usrpRun` finds the exit flag clear, receives a block
of 4 complex samples without error, and finds the flag set at the next test. The order of
events is as the claim says: one test before the receive, the callback before the next test,
then the stop command alone. But the block is not passed in full: `readbuf` holds the 8 values
of the 4 samples while the callback is given `len = 4`, so it asks the converter for 2 samples,
enqueues a block with `validLength - overlap = 2`, counts none as dropped and advances
`sampleCounter` by 2; the last 2 of the 4 received samples are neither converted nor dropped
when the flag is tested again. -/
theorem usrpRun_passes_half_of_received_block :
    (usrpRun env0 [] initState [fourSampleIteration, exitIteration]).trace =
      [RunEvent.streamStart, RunEvent.exitTest false,
       RunEvent.recv [(1, 2), (3, 4), (5, 6), (7, 8)] 4 ErrorCode.ERROR_CODE_NONE,
       RunEvent.callback [1, 2, 3, 4, 5, 6, 7, 8] 4,
       RunEvent.exitTest true, RunEvent.streamStop] ∧
    (usrpRun env0 [] initState [fourSampleIteration, exitIteration]).finished = true ∧
    4 + (blockOf 1 8).overlap ≤ (blockOf 1 8).totalLength ∧
    convertRequests (usrpRun env0 [] initState [fourSampleIteration, exitIteration]).fifo
      = [(77, 1, 2)] ∧
    (enqueuedBlocks (usrpRun env0 [] initState [fourSampleIteration, exitIteration]).fifo).map
      (fun b => (b.validLength - b.overlap, b.dropped)) = [(2, 0)] ∧
    (usrpRun env0 [] initState [fourSampleIteration, exitIteration]).state.cb
      = { dropped := 0, sampleCounter := 2 } ∧
    2 + ((usrpRun env0 [] initState [fourSampleIteration, exitIteration]).state.cb.dropped
          - initState.dropped) ≠ fourSampleIteration.num_rx_samps := by
  decide

end Readsb
